import Mathlib

set_option maxRecDepth 400000

/-!
Verification development for the type-town agent simulation
(`StaticAgentSimulation` in the simulation module, plus the response
sanitizer shared with the client LLM service).

The TypeScript source is embedded shallowly:

* Strings are modelled as `String` / `List Char` with ASCII semantics
  (the identifiers, canned dialogue and user input exercised here are
  ASCII, where JavaScript `toLowerCase`, `trim` and the regexes used by
  `cleanResponse` agree with the model below).
* `Math.random()` calls are modelled by an oracle stream `σ : ℕ → ℚ`
  consumed in program order (the state records the next index).  The
  JavaScript contract `0 ≤ σ i < 1` is assumed where a theorem needs it.
* `Date.now()` is modelled by a frozen clock field `now` (milliseconds).
* Conversation / user ids are generated from counters; the source builds
  them from `Date.now()` plus a random base-36 suffix purely for
  uniqueness, and the corresponding random draw is still consumed.
* Distance comparisons `Math.sqrt (dx*dx+dy*dy) ⋈ c` are modelled by the
  equivalent squared comparison `dx*dx+dy*dy ⋈ c*c` (both sides are
  nonnegative), keeping the registry state computable; bridging lemmas
  relate the two forms.  The per-tick movement itself (which genuinely
  moves along a normalized direction) is modelled over `ℝ` with
  `Real.sqrt` in a dedicated single-agent model.
-/

/-! ## Characters and JavaScript-style string helpers -/

/-- The whitespace characters trimmed/skipped by the model (the ASCII
portion of JavaScript `\s` and `String.prototype.trim`). -/
def isJsSpace (c : Char) : Bool :=
  c = ' ' || c = '\t' || c = '\n' || c = '\r' || c = '\x0b' || c = '\x0c'

/-- Sentence-terminator characters, the class `[.!?]` used by
`cleanResponse`. -/
def isTermChar (c : Char) : Bool :=
  c = '.' || c = '!' || c = '?'

/-- Substring test on character lists: models JavaScript
`haystack.includes(needle)`. -/
def containsSub (needle : List Char) : List Char → Bool
  | [] => needle.isEmpty
  | c :: rest => needle.isPrefixOf (c :: rest) || containsSub needle rest

/-- Models `identity.toLowerCase().includes(kw)` for an ASCII keyword. -/
def idContains (identity kw : String) : Bool :=
  containsSub kw.data (identity.data.map Char.toLower)

/-- JavaScript `String.prototype.trim` on a character list (ASCII). -/
def jsTrim (l : List Char) : List Char :=
  ((l.dropWhile isJsSpace).reverse.dropWhile isJsSpace).reverse

/-- The regex replace `response.replace(new RegExp(`^Name:?\\s*`, 'i'), '')`
in `cleanResponse`: if the response starts (case-insensitively) with the
character name, drop the name, one optional colon, and following
whitespace.  Names are taken to be regex-literal (letters only). -/
def stripNameEcho (name resp : List Char) : List Char :=
  if (name.map Char.toLower).isPrefixOf (resp.map Char.toLower) then
    let rest := resp.drop name.length
    let rest := match rest with
      | ':' :: t => t
      | _ => rest
    rest.dropWhile isJsSpace
  else resp

/-- JavaScript `response.split(/[.!?]+/)`: splits on maximal nonempty runs
of sentence terminators; keeps the (possibly empty) segments between
runs, including a leading/trailing empty segment. -/
def splitSentenceRuns : List Char → List (List Char)
  | [] => [[]]
  | c :: t =>
    let rest := splitSentenceRuns t
    if isTermChar c then
      match t with
      | t0 :: _ => if isTermChar t0 then rest else [] :: rest
      | [] => [] :: rest
    else
      match rest with
      | [] => [[c]]
      | s :: rs => (c :: s) :: rs

/-- `StaticAgentSimulation.cleanResponse` (identical to the single-name
path of `ClientLLM.cleanResponse`): strip a leading speaker-name echo,
drop everything from the first newline on, cap at 200 characters and
trim, drop a trailing partial sentence (re-joining complete sentences
with periods), and substitute a default if empty. -/
def cleanResponseL (resp name : List Char) : List Char :=
  let r := stripNameEcho name resp
  let r := r.takeWhile (· ≠ '\n')
  let r := jsTrim (r.take 200)
  let sentences := splitSentenceRuns r
  let r := if sentences.length > 1 then
      (List.intercalate ['.'] sentences.dropLast) ++ ['.']
    else r
  if r = [] then "Hi there!".data else r

/-- String-level wrapper of the sanitizer. -/
def cleanResponse (response characterName : String) : String :=
  ⟨cleanResponseL response.data characterName.data⟩

/-! ## Data model of the agent simulation -/

/-- A 2-D position, `interface Position`. -/
structure Pos where
  x : ℚ
  y : ℚ
deriving DecidableEq, Repr

/-- `interface Agent` of the simulation module.  Optional JavaScript
fields become `Option`s; `isUserControlled` defaults to `false`
(JavaScript `undefined` is falsy); `memories`/`goals` default to `[]`
(the code initializes them to `[]` before every use). -/
structure Agent where
  id : String
  name : String
  identity : String
  plan : Option String := none
  character : Option String := none
  position : Pos
  targetPosition : Option Pos := none
  currentConversation : Option ℕ := none
  isMoving : Bool
  lastMessage : Option String := none
  lastMessageTime : Option ℕ := none
  isUserControlled : Bool := false
  memories : List String := []
  goals : List String := []
deriving DecidableEq, Repr

/-- A message inside a conversation. -/
structure ConvMessage where
  agentId : String
  text : String
  timestamp : ℕ
deriving DecidableEq, Repr

/-- `interface Conversation`.  Ids are modelled by naturals drawn from a
counter (see `SimState.convCounter`). -/
structure Conversation where
  id : ℕ
  participants : List String
  messages : List ConvMessage
  startTime : ℕ
  lastActivity : ℕ
deriving DecidableEq, Repr

/-- The two message-generation phases used by the simulation module. -/
inductive TurnType
  | start
  | cont
deriving DecidableEq, Repr

/-- Behaviour of the client LLM gateway as observed by the simulation:
not ready (`isReady()` false), a rejected/thrown `generateResponse`, or a
successful generation returning raw text. -/
inductive LLMOutcome
  | notReady
  | failure
  | success (text : String)
deriving DecidableEq, Repr

/-- `DecisionOption.type`. -/
inductive DType
  | socialize
  | explore
  | return_home
  | idle
deriving DecidableEq, Repr

/-- `DecisionOption.target`: an agent, a position, or `null`. -/
inductive DTarget
  | agentT (a : Agent)
  | posT (p : Pos)
  | noneT
deriving DecidableEq, Repr

/-- `interface DecisionOption`. -/
structure DecisionOption where
  type : DType
  priority : ℚ
  target : DTarget
deriving DecidableEq, Repr

/-- The mutable state of a `StaticAgentSimulation` instance.

`agents` and `conversations` model the two insertion-ordered `Map`s.
`pending` records the deferred `setTimeout` conversation turns that have
been scheduled (agent id × phase) but not yet run.  `randIdx` is the
next index into the `Math.random()` oracle; `convCounter`/`userCounter`
generate fresh ids; `now` is the frozen `Date.now()` clock in
milliseconds. -/
structure SimState where
  agents : List Agent
  conversations : List Conversation
  pending : List (String × TurnType)
  randIdx : ℕ
  convCounter : ℕ
  userCounter : ℕ
  now : ℕ
deriving DecidableEq, Repr

/-- Draw the next `Math.random()` value from the oracle. -/
def randDraw (σ : ℕ → ℚ) (s : SimState) : ℚ × SimState :=
  (σ s.randIdx, { s with randIdx := s.randIdx + 1 })

/-- `this.agents.get(id)`. -/
def getAgent (s : SimState) (id : String) : Option Agent :=
  s.agents.find? (fun a => a.id = id)

/-- `this.conversations.get(id)`. -/
def getConv (s : SimState) (cid : ℕ) : Option Conversation :=
  s.conversations.find? (fun c => c.id = cid)

/-- In-place mutation of the agent object with the given id (JavaScript
mutates the object held by the `Map`; iteration order is unchanged). -/
def updateAgent (s : SimState) (id : String) (f : Agent → Agent) : SimState :=
  { s with agents := s.agents.map (fun a => if a.id = id then f a else a) }

/-- In-place mutation of the conversation object with the given id. -/
def updateConv (s : SimState) (cid : ℕ) (f : Conversation → Conversation) :
    SimState :=
  { s with conversations :=
      s.conversations.map (fun c => if c.id = cid then f c else c) }

/-- `conversation.messages.push(m)` on the conversation `cid`. -/
def pushMessage (s : SimState) (cid : ℕ) (m : ConvMessage) : SimState :=
  updateConv s cid (fun c => { c with messages := c.messages ++ [m] })

/-- Squared Euclidean distance, the radicand `dx*dx + dy*dy` of
`getDistance`. -/
def distSq (p q : Pos) : ℚ :=
  (p.x - q.x) * (p.x - q.x) + (p.y - q.y) * (p.y - q.y)

/-- `getDistance(p, q) < c` for a nonnegative threshold `c`, computed on
squares (`Math.sqrt s < c ↔ s < c*c`); see `getDistance_lt_iff`. -/
def closerThan (p q : Pos) (c : ℚ) : Bool :=
  distSq p q < c * c

/-- `getDistance(p, q) > c` for a nonnegative threshold `c`, computed on
squares; see `getDistance_gt_iff`. -/
def fartherThan (p q : Pos) (c : ℚ) : Bool :=
  c * c < distSq p q

/-- `getDistance(p, q) <= c` for a nonnegative threshold `c`, computed on
squares. -/
def withinDist (p q : Pos) (c : ℚ) : Bool :=
  distSq p q ≤ c * c

/-- The real-valued `getDistance` of the source
(`Math.sqrt(dx*dx + dy*dy)`), used to justify the squared comparisons. -/
noncomputable def getDistance (p q : Pos) : ℝ :=
  Real.sqrt ((distSq p q : ℚ))

/-! ## World initialization -/

/-- The five agents created by `initializeAgents` (rich character data
from the original AI Town cast). -/
def initialAgents : List Agent :=
  [ { id := "lucky", name := "Lucky"
    , identity := "Lucky is always happy and curious, and he loves cheese. He spends most of his time reading about the history of science and traveling through the galaxy on whatever ship will take him. He\x27s very articulate and infinitely patient, except when he sees a squirrel. He\x27s also incredibly loyal and brave. Lucky has just returned from an amazing space adventure to explore a distant planet and he\x27s very excited to tell people about it."
    , plan := some "You want to hear all the gossip."
    , character := some "f1"
    , position := ⟨200, 300⟩
    , isMoving := false
    , memories := ["Recently returned from space adventure", "Loves cheese and science"]
    , goals := ["Share space adventure stories", "Learn local gossip"] }
  , { id := "bob", name := "Bob"
    , identity := "Bob is always grumpy and he loves trees. He spends most of his time gardening by himself. When spoken to he\x27ll respond but try and get out of the conversation as quickly as possible. Secretly he resents that he never went to college."
    , plan := some "You want to avoid people as much as possible."
    , character := some "f4"
    , position := ⟨400, 200⟩
    , isMoving := false
    , memories := ["Never went to college", "Prefers gardening alone"]
    , goals := ["Tend to plants", "Avoid social interactions"] }
  , { id := "stella", name := "Stella"
    , identity := "Stella can never be trusted. She tries to trick people all the time, normally into giving her money, or doing things that will make her money. She\x27s incredibly charming and not afraid to use her charm. She\x27s a sociopath who has no empathy, but hides it well."
    , plan := some "You want to take advantage of others as much as possible."
    , character := some "f6"
    , position := ⟨600, 400⟩
    , isMoving := false
    , memories := ["Successfully tricked someone last week", "Charming exterior hides true nature"]
    , goals := ["Find new marks to con", "Make money through deception"] }
  , { id := "alice", name := "Alice"
    , identity := "Alice is a famous scientist. She is smarter than everyone else and has discovered mysteries of the universe no one else can understand. As a result she often speaks in oblique riddles. She comes across as confused and forgetful."
    , plan := some "You want to figure out how the world works."
    , character := some "f3"
    , position := ⟨350, 500⟩
    , isMoving := false
    , memories := ["Discovered quantum entanglement patterns", "Nobel prize consideration"]
    , goals := ["Unravel universe mysteries", "Share knowledge in cryptic ways"] }
  , { id := "pete", name := "Pete"
    , identity := "Pete is deeply religious and sees the hand of god or of the work of the devil everywhere. He can\x27t have a conversation without bringing up his deep faith, or warning others about the perils of hell."
    , plan := some "You want to convert everyone to your religion."
    , character := some "f7"
    , position := ⟨300, 600⟩
    , isMoving := false
    , memories := ["Had religious awakening last month", "Sees signs everywhere"]
    , goals := ["Convert others to faith", "Warn about spiritual dangers"] } ]

/-- The state of a freshly constructed `StaticAgentSimulation`. -/
def initState : SimState :=
  { agents := initialAgents
  , conversations := []
  , pending := []
  , randIdx := 0
  , convCounter := 0
  , userCounter := 0
  , now := 0 }

/-! ## Fallback dialogue table -/

/-- The canned line lists of `generateFallbackMessage`, keyed by the
speaker's id and the phase.  `none` means the id has no table entry
(the source then returns a generic line before drawing any random). -/
def fallbackTable (agentId otherName : String) :
    TurnType → Option (List String)
  | TurnType.start =>
    if agentId = "lucky" then some
      [ "Hi " ++ otherName ++ "! I just got back from the most amazing space adventure!"
      , "Hello there! I\x27m Lucky, nice to meet you. Want to hear about my travels?"
      , "Hey " ++ otherName ++ "! Have you heard any good gossip lately?" ]
    else if agentId = "bob" then some
      [ "Oh, hi " ++ otherName ++ ". I was just... working with the plants."
      , "Hello. I\x27m Bob. I prefer to keep to myself, but nice to meet you."
      , "Hey there. I don\x27t really talk much, but... hi." ]
    else if agentId = "stella" then some
      [ "Well hello there, " ++ otherName ++ "! What a lovely day to meet someone new."
      , "Hi darling! I\x27m Stella. You look like someone with excellent taste."
      , "Hello gorgeous! I bet you have the most interesting stories." ]
    else if agentId = "alice" then some
      [ "Greetings " ++ otherName ++ ". I\x27ve been pondering the quantum implications of social interaction."
      , "Hello. I\x27m Alice. The universe whispers its secrets, but do we listen?"
      , "Hi there. Time is a flat circle, but conversations are... spherical?" ]
    else if agentId = "pete" then some
      [ "Blessings upon you, " ++ otherName ++ "! The Lord has brought us together today."
      , "Hello my friend! I\x27m Pete. Have you considered the state of your eternal soul lately?"
      , "Greetings! I see God\x27s hand in our meeting today." ]
    else none
  | TurnType.cont =>
    if agentId = "lucky" then some
      [ "That\x27s really fascinating! It reminds me of something I saw on a distant planet."
      , "Wow, that\x27s quite interesting! Space travel has taught me to appreciate different perspectives."
      , "Amazing! I\x27d love to hear more - I collect stories from my adventures."
      , "That\x27s wonderful! Speaking of adventures, have I told you about the cheese mines of Zephyr Prime?" ]
    else if agentId = "bob" then some
      [ "Yeah, sure. That\x27s... nice."
      , "Hmm. Well, I should probably get back to my gardening."
      , "Uh-huh. Look, I\x27m not really good with people."
      , "Right. Well, plants don\x27t usually disagree with you." ]
    else if agentId = "stella" then some
      [ "Oh how fascinating! You know, I have this wonderful opportunity I think you\x27d love..."
      , "That\x27s so clever of you! You seem like someone who appreciates good investments."
      , "How delightfully smart! I have a feeling we could help each other out."
      , "Such wisdom! You know, successful people like us should stick together." ]
    else if agentId = "alice" then some
      [ "Ah yes, the butterfly effect cascades through even the smallest utterances..."
      , "Indeed, much like Schrödinger\x27s cat, truth exists in superposition until observed."
      , "The mathematics of human connection follow such elegant algorithms..."
      , "Fascinating! This reminds me of my work on interdimensional probability matrices." ]
    else if agentId = "pete" then some
      [ "Praise be! The Lord works in mysterious ways through all our conversations."
      , "Indeed, brother/sister! Though beware - the devil lurks in idle words."
      , "Hallelujah! Faith guides us through all of life\x27s trials and tribulations."
      , "Amen! The righteous path is narrow, but salvation awaits the faithful." ]
    else none

/-- `generateFallbackMessage`: canned line for known speakers (chosen by
`Math.floor(Math.random() * options.length)`), generic line otherwise
(no random consumed in that case, matching the early return). -/
def generateFallbackMessage (σ : ℕ → ℚ) (s : SimState)
    (agent other : Agent) (ty : TurnType) : String × SimState :=
  match fallbackTable agent.id other.name ty with
  | none =>
    (if ty = TurnType.start then "Hello " ++ other.name ++ "!"
     else "That\x27s interesting.", s)
  | some options =>
    let (r, s) := randDraw σ s
    (options.getD (⌊r * (options.length : ℚ)⌋).toNat "", s)

/-! ## Decision engine helpers -/

/-- `getRecentConversationCount`: memories mentioning "conversation",
gated by the agent having spoken within the last 5 minutes. -/
def getRecentConversationCount (s : SimState) (agent : Agent) : ℕ :=
  (agent.memories.filter (fun m =>
    containsSub "conversation".data m.data &&
    decide (s.now - agent.lastMessageTime.getD 0 < 300000))).length

/-- `getSocialScore`: keyword heuristic over the identity text, reduced
after recent conversations, clamped to `[0, 1]`. -/
def getSocialScore (s : SimState) (agent : Agent) : ℚ :=
  let score : ℚ := 1/2
  let score := if idContains agent.identity "social" ||
      idContains agent.identity "friendly" ||
      idContains agent.identity "outgoing" then score + 3/10 else score
  let score := if idContains agent.identity "shy" ||
      idContains agent.identity "quiet" then score - 1/5 else score
  let score := if 2 < getRecentConversationCount s agent then score - 1/10
    else score
  max 0 (min 1 score)

/-- `getExplorationScore`: keyword heuristic, clamped to `[0, 1]`. -/
def getExplorationScore (agent : Agent) : ℚ :=
  let score : ℚ := 1/2
  let score := if idContains agent.identity "curious" ||
      idContains agent.identity "explorer" ||
      idContains agent.identity "adventurous" then score + 2/5 else score
  let score := if idContains agent.identity "homebody" ||
      idContains agent.identity "cautious" then score - 1/5 else score
  max 0 (min 1 score)

/-- `findNearbyAgents`: all other agents within `radius` units
(`distance <= radius` in the source). -/
def findNearbyAgents (s : SimState) (agent : Agent) (radius : ℚ) :
    List Agent :=
  s.agents.filter (fun other =>
    other.id ≠ agent.id && withinDist agent.position other.position radius)

/-- The five named points of interest of `findInterestingDestination`. -/
def interestingAreas : List Pos :=
  [⟨300, 400⟩, ⟨800, 300⟩, ⟨600, 600⟩, ⟨200, 800⟩, ⟨1000, 500⟩]

/-- `findInterestingDestination`: with probability 0.7 a jittered named
area, otherwise a uniform point on the 1440×1024 map with a 50-unit
margin.  Random draws are consumed in source order. -/
def findInterestingDestination (σ : ℕ → ℚ) (s : SimState) :
    Pos × SimState :=
  let (r, s) := randDraw σ s
  if r < 7/10 then
    let (ra, s) := randDraw σ s
    let area := interestingAreas.getD
      (⌊ra * (interestingAreas.length : ℚ)⌋).toNat ⟨0, 0⟩
    let (rx, s) := randDraw σ s
    let (ry, s) := randDraw σ s
    (⟨area.x + (rx - 1/2) * 200, area.y + (ry - 1/2) * 200⟩, s)
  else
    let (rx, s) := randDraw σ s
    let (ry, s) := randDraw σ s
    (⟨rx * (1440 - 100) + 50, ry * (1024 - 100) + 50⟩, s)

/-- 32-bit signed wrap-around, the effect of JavaScript `a & a` /
`a << 5` coercions in `getHomeLocation`'s string hash. -/
def toInt32 (n : ℤ) : ℤ :=
  (n + 2 ^ 31) % 2 ^ 32 - 2 ^ 31

/-- `getHomeLocation`: a deterministic pseudo-home derived from hashing
the agent id (JavaScript 31-ish rolling hash over char codes with `%`
truncated remainder and arithmetic `>> 8`). -/
def getHomeLocation (agent : Agent) : Pos :=
  let hash : ℤ := agent.id.data.foldl
    (fun a c => toInt32 (toInt32 (a * 32) - a + c.toNat)) 0
  ⟨((Int.tmod hash 800).natAbs : ℚ) + 200,
   ((Int.tmod (Int.fdiv hash 256) 600).natAbs : ℚ) + 200⟩

/-- Stable insertion step for sorting decision options by decreasing
priority: a new option goes after every existing option of greater or
equal priority (so the output matches JavaScript's stable
`sort((a, b) => b.priority - a.priority)`). -/
def insertByPriority (d : DecisionOption) :
    List DecisionOption → List DecisionOption
  | [] => [d]
  | e :: es => if d.priority ≤ e.priority then e :: insertByPriority d es
      else d :: e :: es

/-- Stable sort by decreasing priority (see `insertByPriority`). -/
def sortByPriorityDesc (l : List DecisionOption) : List DecisionOption :=
  l.foldl (fun acc d => insertByPriority d acc) []

/-- `evaluateDecisionOptions`: socialize toward `availableAgents[0]`
when any neighbour is free, explore toward an interesting destination,
return home when the agent has memories, always idle; sorted by
decreasing priority. -/
def evaluateDecisionOptions (σ : ℕ → ℚ) (s : SimState) (agent : Agent)
    (available : List Agent) : List DecisionOption × SimState :=
  let ds : List DecisionOption :=
    match available with
    | a :: _ =>
      [⟨DType.socialize, getSocialScore s agent * (2/5), DTarget.agentT a⟩]
    | [] => []
  let (dest, s) := findInterestingDestination σ s
  let ds := ds ++ [⟨DType.explore, getExplorationScore agent * (3/10),
    DTarget.posT dest⟩]
  let ds := if agent.memories.length > 0 then
      ds ++ [⟨DType.return_home, 1/5, DTarget.posT (getHomeLocation agent)⟩]
    else ds
  let ds := ds ++ [⟨DType.idle, 1/10, DTarget.noneT⟩]
  (sortByPriorityDesc ds, s)

/-- The cumulative-weight walk of `selectDecisionWithRandomness`. -/
def selectAux : ℚ → List DecisionOption → Option DecisionOption
  | _, [] => none
  | r, d :: ds =>
    let r := r - d.priority * d.priority
    if r ≤ 0 then some d else selectAux r ds

/-- `selectDecisionWithRandomness`: squared-priority weighted draw with a
fall-through to `decisions[0]`. -/
def selectDecisionWithRandomness (σ : ℕ → ℚ) (s : SimState)
    (decisions : List DecisionOption) : DecisionOption × SimState :=
  let total := (decisions.map (fun d => d.priority * d.priority)).sum
  let (r, s) := randDraw σ s
  ((selectAux (r * total) decisions).getD
    (decisions.getD 0 ⟨DType.idle, 0, DTarget.noneT⟩), s)

/-- `slice(-10)` applied after a push when the memory list exceeds 10
entries (only the explore branch does this). -/
def capLast10 (l : List String) : List String :=
  if l.length > 10 then l.drop (l.length - 10) else l

/-! ## Conversation engine and decision execution

The source functions `startConversation`, `generateConversationMessage`,
`endConversation`, `moveAgentRandomly`, `makeIntelligentDecision`,
`initiateConversation` and `executeDecision` form a call cycle
(`endConversation` re-runs the decision engine for each participant,
which can start a new conversation).  The JavaScript recursion
terminates because a freshly started conversation has fewer than 6
messages; the embedding makes this explicit with a fuel parameter
(`fuel = 0` returns the state unchanged; every theorem below supplies
ample fuel). -/

/-- A call into the mutually recursive conversation/decision cluster
(`startConversation`, `generateConversationMessage`, `endConversation`,
`moveAgentRandomly`, `makeIntelligentDecision`, `initiateConversation`,
`executeDecision`).  Packing the cluster into one structurally recursive
interpreter keeps every definition kernel-reducible. -/
inductive EngineCall
  | startC (agent1Id agent2Id : String)
  | genMsg (agentId : String) (ty : TurnType)
  | endC (conversationId : ℕ)
  | moveRnd (agentId : String)
  | makeDec (agentId : String)
  | initC (initiatorId targetId : String)
  | execDec (agentId : String) (decision : DecisionOption)
      (available : List Agent)

/-- Interpreter for the cluster; one unit of fuel is consumed per nested
cluster call (`fuel = 0` returns the state unchanged — every theorem
below supplies ample fuel, and the JavaScript recursion is finite
because a fresh conversation is below the 6-message cap). -/
def runEngine : ℕ → (ℕ → ℚ) → LLMOutcome → SimState → EngineCall →
    SimState
  | 0, _, _, s, _ => s
  | fuel + 1, σ, llm, s, call =>
    match call with
    | EngineCall.startC a1 a2 =>
      let cid := s.convCounter
      let (_, s) := randDraw σ s
      let conv : Conversation :=
        { id := cid
          participants := [a1, a2]
          messages := []
          startTime := s.now
          lastActivity := s.now }
      let s := { s with
        conversations := s.conversations ++ [conv]
        convCounter := cid + 1 }
      let s := updateAgent s a1 (fun a => { a with currentConversation := some cid })
      let s := updateAgent s a2 (fun a => { a with currentConversation := some cid })
      runEngine fuel σ llm s (EngineCall.genMsg a1 TurnType.start)
    | EngineCall.genMsg agentId ty =>
      match getAgent s agentId with
      | none => s
      | some agent =>
        match agent.currentConversation with
        | none => s
        | some cid =>
          match getConv s cid with
          | none => s
          | some conversation =>
            match (conversation.participants.find?
                (fun pid => pid ≠ agentId)).bind (getAgent s) with
            | none => s
            | some otherAgent =>
              let (message, s) :=
                match llm with
                | LLMOutcome.success raw => (cleanResponse raw agent.name, s)
                | LLMOutcome.failure =>
                  generateFallbackMessage σ s agent otherAgent ty
                | LLMOutcome.notReady =>
                  generateFallbackMessage σ s agent otherAgent ty
              let s := pushMessage s cid ⟨agentId, message, s.now⟩
              let s := updateAgent s agentId (fun a =>
                { a with
                  lastMessage := some message
                  lastMessageTime := some s.now })
              if conversation.messages.length + 1 < 6 then
                let (_, s) := randDraw σ s
                { s with pending := s.pending ++ [(otherAgent.id, TurnType.cont)] }
              else
                runEngine fuel σ llm s (EngineCall.endC cid)
    | EngineCall.endC cid =>
      match getConv s cid with
      | none => s
      | some conv =>
        conv.participants.foldl (fun s aid =>
          match getAgent s aid with
          | none => s
          | some _ =>
            runEngine fuel σ llm
              (updateAgent s aid (fun a => { a with currentConversation := none }))
              (EngineCall.moveRnd aid)) s
    | EngineCall.moveRnd agentId =>
      runEngine fuel σ llm s (EngineCall.makeDec agentId)
    | EngineCall.makeDec agentId =>
      match getAgent s agentId with
      | none => s
      | some agent =>
        if agent.isUserControlled then s
        else
          let nearby := findNearbyAgents s agent 200
          let available := nearby.filter (fun a =>
            a.currentConversation.isNone && !a.isMoving)
          let (decisions, s) := evaluateDecisionOptions σ s agent available
          let (chosen, s) := selectDecisionWithRandomness σ s decisions
          runEngine fuel σ llm s (EngineCall.execDec agentId chosen available)
    | EngineCall.initC a1 a2 =>
      runEngine fuel σ llm s (EngineCall.startC a1 a2)
    | EngineCall.execDec agentId decision available =>
      match decision.type with
      | DType.socialize =>
        match decision.target with
        | DTarget.agentT targetAgent =>
          if available.contains targetAgent then
            runEngine fuel σ llm s (EngineCall.initC agentId targetAgent.id)
          else s
        | _ => s
      | DType.explore =>
        match decision.target with
        | DTarget.posT p =>
          updateAgent s agentId (fun a =>
            { a with
              targetPosition := some p
              isMoving := true
              memories := capLast10 (a.memories ++
                ["Decided to explore area at " ++ toString p.x ++ ", " ++
                  toString p.y]) })
        | _ => s
      | DType.return_home =>
        match decision.target with
        | DTarget.posT p =>
          updateAgent s agentId (fun a =>
            { a with
              targetPosition := some p
              isMoving := true
              memories := a.memories ++ ["Returning to familiar area"] })
        | _ => s
      | DType.idle =>
        updateAgent s agentId (fun a =>
          { a with memories := a.memories ++
              ["Taking a moment to rest and observe surroundings"] })

/-- `startConversation(agent1Id, agent2Id)` up to its first `await` and
the synchronous continuation: register the conversation, mark both
participants, and produce the opening message from `agent1Id`.  One
random draw is consumed for the id suffix. -/
def startConversation (fuel : ℕ) (σ : ℕ → ℚ) (llm : LLMOutcome)
    (s : SimState) (agent1Id agent2Id : String) : SimState :=
  runEngine fuel σ llm s (EngineCall.startC agent1Id agent2Id)

/-- `generateConversationMessage(agentId, type)` with the gateway
behaviour `llm`: resolve agent, conversation and partner (returning
silently when any is missing), produce the message (sanitized LLM output
on success, canned fallback when the gateway is not ready or rejects),
push it, update `lastMessage`, then either schedule the partner's
deferred continue turn (one random draw for the delay) or end the
conversation at the 6-message cap. -/
def generateConversationMessage (fuel : ℕ) (σ : ℕ → ℚ) (llm : LLMOutcome)
    (s : SimState) (agentId : String) (ty : TurnType) : SimState :=
  runEngine fuel σ llm s (EngineCall.genMsg agentId ty)

/-- `endConversation(conversationId)`: clear each participant's
`currentConversation` and immediately send it through
`moveAgentRandomly`.  Note: the conversation itself is NOT removed from
the `conversations` map (the source has no `delete`). -/
def endConversation (fuel : ℕ) (σ : ℕ → ℚ) (llm : LLMOutcome)
    (s : SimState) (conversationId : ℕ) : SimState :=
  runEngine fuel σ llm s (EngineCall.endC conversationId)

/-- `moveAgentRandomly` (second revision): delegates to the intelligent
decision system. -/
def moveAgentRandomly (fuel : ℕ) (σ : ℕ → ℚ) (llm : LLMOutcome)
    (s : SimState) (agentId : String) : SimState :=
  runEngine fuel σ llm s (EngineCall.moveRnd agentId)

/-- `makeIntelligentDecision(agent)`: skip user-controlled agents,
gather free nearby agents within 200 units, evaluate and select a
decision, execute it. -/
def makeIntelligentDecision (fuel : ℕ) (σ : ℕ → ℚ) (llm : LLMOutcome)
    (s : SimState) (agentId : String) : SimState :=
  runEngine fuel σ llm s (EngineCall.makeDec agentId)

/-- `initiateConversation(initiator, target)`. -/
def initiateConversation (fuel : ℕ) (σ : ℕ → ℚ) (llm : LLMOutcome)
    (s : SimState) (initiatorId targetId : String) : SimState :=
  runEngine fuel σ llm s (EngineCall.initC initiatorId targetId)

/-- `executeDecision(agent, decision, availableAgents)`: socialize
(start a conversation when the target is still in the available pool),
explore / return home (set movement target and append a memory note —
only the explore branch caps the memory list at 10), or idle (append a
rest note). -/
def executeDecision (fuel : ℕ) (σ : ℕ → ℚ) (llm : LLMOutcome)
    (s : SimState) (agentId : String) (decision : DecisionOption)
    (available : List Agent) : SimState :=
  runEngine fuel σ llm s (EngineCall.execDec agentId decision available)

/-! ## Tick phases and external control operations -/

/-- Ordered pairs `(l[i], l[j])` with `i < j`, the double loop of
`checkForConversations`. -/
def pairsOf {α : Type} : List α → List (α × α)
  | [] => []
  | x :: xs => xs.map (fun y => (x, y)) ++ pairsOf xs

/-- `checkForConversations`: snapshot the free agents (no conversation,
not moving) once, then for every pair in loop order check the live
distance and roll the 80% trigger.  The random draw only happens when
the distance check passes (JavaScript `&&` short-circuit). -/
def checkForConversations (fuel : ℕ) (σ : ℕ → ℚ) (llm : LLMOutcome)
    (s : SimState) : SimState :=
  let freeIds := (s.agents.filter (fun a =>
    a.currentConversation.isNone && !a.isMoving)).map (fun a => a.id)
  (pairsOf freeIds).foldl (fun s p =>
    match getAgent s p.1, getAgent s p.2 with
    | some a1, some a2 =>
      if closerThan a1.position a2.position 120 then
        let (r, s) := randDraw σ s
        if r < 4/5 then startConversation fuel σ llm s p.1 p.2 else s
      else s
    | _, _ => s) s

/-- `updateConversations`: snapshot the conversation ids, end every
conversation older than 60 seconds. -/
def updateConversations (fuel : ℕ) (σ : ℕ → ℚ) (llm : LLMOutcome)
    (s : SimState) : SimState :=
  (s.conversations.map (fun c => c.id)).foldl (fun s cid =>
    match getConv s cid with
    | some c =>
      if s.now - c.startTime > 60000 then endConversation fuel σ llm s cid
      else s
    | none => s) s

/-- `getActiveConversations`: conversations with a message in the last
10 seconds. -/
def getActiveConversations (s : SimState) : List Conversation :=
  s.conversations.filter (fun conv =>
    conv.messages.any (fun msg => s.now - msg.timestamp < 10000))

/-- `addUserCharacter(name, identity)`: register a user-controlled agent
at a random position in `[100, 500) × [100, 400)`.  The id random suffix
consumes a draw; the id itself comes from `userCounter`. -/
def addUserCharacter (σ : ℕ → ℚ) (s : SimState) (name identity : String) :
    String × SimState :=
  let (_, s) := randDraw σ s
  let userId := "user_" ++ toString s.userCounter
  let (rx, s) := randDraw σ s
  let (ry, s) := randDraw σ s
  let userAgent : Agent :=
    { id := userId
      name := name
      identity := identity
      position := ⟨rx * 400 + 100, ry * 300 + 100⟩
      isMoving := false
      isUserControlled := true
      memories := []
      goals := ["Interact with other characters", "Have interesting conversations"] }
  (userId, { s with
    agents := s.agents ++ [userAgent]
    userCounter := s.userCounter + 1 })

/-- `moveUserCharacter(userId, targetPosition)`: boolean failure unless
the agent exists and is user-controlled. -/
def moveUserCharacter (s : SimState) (userId : String) (target : Pos) :
    Bool × SimState :=
  match getAgent s userId with
  | none => (false, s)
  | some agent =>
    if !agent.isUserControlled then (false, s)
    else
      (true, updateAgent s userId (fun a =>
        { a with targetPosition := some target, isMoving := true }))

/-- `sendUserMessage(userId, message, targetAgentId)`: validate the
sender, the target's freedom and the 80-unit proximity; start a
conversation when the sender is free (which synchronously produces the
opening message, see `startConversation`); append the user's text to the
sender's current conversation; schedule the target's deferred continue
turn (one random draw for the delay). -/
def sendUserMessage (fuel : ℕ) (σ : ℕ → ℚ) (llm : LLMOutcome)
    (s : SimState) (userId message : String)
    (targetAgentId : Option String) : Bool × SimState :=
  match getAgent s userId with
  | none => (false, s)
  | some userAgent =>
    if !userAgent.isUserControlled then (false, s)
    else
      match targetAgentId with
      | none => (true, s)
      | some tid =>
        match getAgent s tid with
        | none => (false, s)
        | some targetAgent =>
          if targetAgent.currentConversation.isSome then (false, s)
          else if fartherThan userAgent.position targetAgent.position 80 then
            (false, s)
          else
            let s := if userAgent.currentConversation.isNone then
                startConversation fuel σ llm s userId tid
              else s
            match getAgent s userId with
            | none => (true, s)
            | some liveUser =>
              match liveUser.currentConversation with
              | none => (true, s)
              | some cid =>
                match getConv s cid with
                | none => (true, s)
                | some _ =>
                  let s := pushMessage s cid ⟨userId, message, s.now⟩
                  let s := updateAgent s userId (fun a =>
                    { a with
                      lastMessage := some message
                      lastMessageTime := some s.now })
                  let (_, s) := randDraw σ s
                  (true, { s with
                    pending := s.pending ++ [(tid, TurnType.cont)] })

/-- `clearWorld()`: clear both registries and re-run
`initializeAgents`.  Pending timers and counters are untouched. -/
def clearWorld (s : SimState) : SimState :=
  { s with agents := initialAgents, conversations := [] }

/-- `giveNPCGoal(npcId, goal)`: prepend the goal (capped at 5), append a
memory note (uncapped), and force an immediate decision re-evaluation. -/
def giveNPCGoal (fuel : ℕ) (σ : ℕ → ℚ) (llm : LLMOutcome) (s : SimState)
    (npcId goal : String) : Bool × SimState :=
  match getAgent s npcId with
  | none => (false, s)
  | some npc =>
    if npc.isUserControlled then (false, s)
    else
      let s := updateAgent s npcId (fun a =>
        { a with
          goals := (goal :: a.goals).take 5
          memories := a.memories ++ ["Given new goal: " ++ goal] })
      (true, makeIntelligentDecision fuel σ llm s npcId)

/-! ## Movement model (per-agent `updateMovement` body, over ℝ)

`updateMovement` runs the same independent per-agent step for every
agent; the step genuinely computes `Math.sqrt`, so it is modelled over
the real numbers. -/

/-- The movement-relevant fields of one agent. -/
structure MovAgent where
  position : ℝ × ℝ
  targetPosition : Option (ℝ × ℝ)
  isMoving : Bool

/-- Euclidean distance, `Math.sqrt(dx*dx + dy*dy)` with
`dx = target.x - position.x`. -/
noncomputable def euclidDist (p t : ℝ × ℝ) : ℝ :=
  Real.sqrt ((t.1 - p.1) * (t.1 - p.1) + (t.2 - p.2) * (t.2 - p.2))

/-- One tick of `updateMovement` for one agent: if moving toward a
target, snap-arrive below 5 units (clearing `isMoving` and
`targetPosition`), else advance by speed 2 along the normalized
direction. -/
noncomputable def updateMovement (a : MovAgent) : MovAgent :=
  match a.isMoving, a.targetPosition with
  | true, some t =>
    let dx := t.1 - a.position.1
    let dy := t.2 - a.position.2
    let distance := Real.sqrt (dx * dx + dy * dy)
    if distance < 5 then
      { a with isMoving := false, targetPosition := none }
    else
      { a with position :=
          (a.position.1 + dx / distance * 2, a.position.2 + dy / distance * 2) }
  | _, _ => a

/-! ## Concrete scenario states used by the theorems -/

/-- Oracle with every `Math.random()` draw equal to 1/2. -/
def oracleHalf : ℕ → ℚ := fun _ => 1/2

/-- Oracle with every `Math.random()` draw equal to 9/10. -/
def oracleNine : ℕ → ℚ := fun _ => 9/10

/-- Oracle placing the added user character at (350, 200), 50 units from
Bob; all other draws are 1/2. -/
def oracleAt350200 : ℕ → ℚ :=
  fun i => if i = 1 then 5/8 else if i = 2 then 1/3 else 1/2

/-- Fresh world plus one user character; with `oracleHalf` the user
spawns at (300, 250), within 120 units of both Lucky and Bob. -/
def triangleWorld : SimState :=
  (addUserCharacter oracleHalf initState "Visitor" "a visiting user").2

/-- One proximity scan over `triangleWorld` with the gateway not ready
and every trigger roll passing (1/2 < 0.8). -/
def triangleScan : SimState :=
  checkForConversations 10 oracleHalf LLMOutcome.notReady triangleWorld

/-- Fresh world plus one user character at (350, 200). -/
def nearBobAdd : String × SimState :=
  addUserCharacter oracleAt350200 initState "Visitor" "a visiting user"

/-- `sendUserMessage(user, "hello", bob)` at distance 50 with the
gateway not ready. -/
def nearBobSend : Bool × SimState :=
  sendUserMessage 10 oracleAt350200 LLMOutcome.notReady nearBobAdd.2
    nearBobAdd.1 "hello" (some "bob")

/-- Fresh world plus one user character (position irrelevant). -/
def selfSendAdd : String × SimState :=
  addUserCharacter oracleHalf initState "Visitor" "a visiting user"

/-- The user messaging itself. -/
def selfSendResult : Bool × SimState :=
  sendUserMessage 10 oracleHalf LLMOutcome.notReady selfSendAdd.2
    selfSendAdd.1 "hello" (some selfSendAdd.1)

/-- The default world with Bob and Pete placed in conversation 0
(started at time 0) and the clock at 61 seconds. -/
def timedOutWorld : SimState :=
  { agents := initialAgents.map (fun a =>
      if a.id = "bob" || a.id = "pete" then
        { a with currentConversation := some 0 }
      else a)
    conversations := [⟨0, ["bob", "pete"], [], 0, 0⟩]
    pending := []
    randIdx := 0
    convCounter := 1
    userCounter := 0
    now := 61000 }

/-- Ending Bob and Pete's conversation with all draws at 9/10 (Bob's
forced decision is idle, Pete's is explore). -/
def timedOutEnd : SimState :=
  endConversation 10 oracleNine LLMOutcome.notReady timedOutWorld 0

/-- The timeout sweep over `timedOutWorld`. -/
def timedOutSweep : SimState :=
  updateConversations 10 oracleNine LLMOutcome.notReady timedOutWorld

/-- Nine consecutive `giveNPCGoal("bob", "Guard the gate")` calls with
all draws at 9/10 (each forced decision is idle). -/
def nineGoalsWorld : SimState :=
  (fun st => (giveNPCGoal 10 oracleNine LLMOutcome.notReady st "bob"
    "Guard the gate").2)^[9] initState

/-- A world with two user-controlled agents in conversation 0, used to
exercise the user-controlled frame of `endConversation`. -/
def twoUserWorld : SimState :=
  { agents :=
      [ { id := "u1", name := "Ann", identity := "user one"
          position := ⟨0, 0⟩, isMoving := false, isUserControlled := true
          currentConversation := some 0 }
      , { id := "u2", name := "Ben", identity := "user two"
          position := ⟨10, 0⟩, isMoving := false, isUserControlled := true
          currentConversation := some 0 } ]
    conversations := [⟨0, ["u1", "u2"], [], 0, 0⟩]
    pending := []
    randIdx := 0
    convCounter := 1
    userCounter := 0
    now := 61000 }

/-! ## Theorems -/

/-- C1.  The claimed exclusivity invariant fails: `checkForConversations`
filters the free agents once, before the pair loop, and never re-checks
`currentConversation` inside it.  In the reachable state `triangleWorld`
(the default cast plus one user character spawned at (300, 250), within
120 units of both Lucky and Bob), a single proximity scan in which every
trigger roll passes starts the conversations (lucky, user), (bob, user)
and (alice, pete): the user appears in the participant lists of two
distinct registered conversations, directly contradicting the claim that
an agent with `currentConversation` set is excluded from subsequent pair
checks in the same tick. -/
theorem c1_proximity_scan_shares_participant :
    (triangleScan.conversations.map (fun c => (c.id, c.participants))) =
      [(0, ["lucky", "user_0"]), (1, ["bob", "user_0"]), (2, ["alice", "pete"])] ∧
    (triangleScan.conversations.filter
      (fun c => c.participants.contains "user_0")).length = 2 :=
  of_decide_eq_true (by with_unfolding_all rfl)

/-- C2.  Direct user message at distance 50 from the free NPC Bob with
the gateway not ready: `sendUserMessage` does return `true`, but the
conversation's first entry is a canned opener that `startConversation`
generated on the user's behalf ("Hello Bob!"); the user's own text
"hello" is only the second entry, and two deferred reply turns are
scheduled for the NPC (one by `generateConversationMessage`, one by
`sendUserMessage`), not one. -/
theorem c2_sendUserMessage_direct_message :
    nearBobSend.1 = true ∧
    (nearBobSend.2.conversations.map (fun c =>
      (c.participants, c.messages.map (fun m => (m.agentId, m.text))))) =
      [(["user_0", "bob"], [("user_0", "Hello Bob!"), ("user_0", "hello")])] ∧
    nearBobSend.2.pending = [("bob", TurnType.cont), ("bob", TurnType.cont)] :=
  of_decide_eq_true (by with_unfolding_all rfl)

/-- C3 counterexample.  "Hello! How are you?" satisfies every premise of
the claim — no leading speaker-name echo (for speaker "Zed"), no
newline, 19 ≤ 200 characters, already trimmed, and no trailing partial
sentence (its sentence split ends with an empty segment) — yet
`cleanResponse` rewrites it to "Hello. How are you.", replacing the
internal '!' and the final '?' by periods, which is neither trimming nor
period-append. -/
theorem c3_cleanResponse_counterexample :
    stripNameEcho "Zed".data "Hello! How are you?".data =
      "Hello! How are you?".data ∧
    "Hello! How are you?".data.contains '\n' = false ∧
    "Hello! How are you?".data.length ≤ 200 ∧
    jsTrim "Hello! How are you?".data = "Hello! How are you?".data ∧
    splitSentenceRuns "Hello! How are you?".data =
      ["Hello".data, " How are you".data, []] ∧
    cleanResponse "Hello! How are you?" "Zed" = "Hello. How are you." ∧
    cleanResponse "Hello! How are you?" "Zed" ≠ "Hello! How are you?" := by
  decide

/-- C6 counterexample.  `sendUserMessage` has no self-target check: a
free user-controlled agent messaging itself returns `true` (creating a
degenerate conversation whose participant list is the user twice), while
the claim says it returns `false`. -/
theorem c6_self_message_counterexample :
    selfSendResult.1 = true ∧
    (selfSendResult.2.conversations.map (fun c => c.participants)) =
      [["user_0", "user_0"]] :=
  of_decide_eq_true (by with_unfolding_all rfl)

/-- C7 counterexample.  With Bob and Pete's conversation 0 started at
time 0 and the clock at 61 s (past the 60 s maximum), the timeout sweep
`updateConversations` ends the conversation — both participants'
`currentConversation` become `none` — but the conversation is still in
the conversations store afterwards (`endConversation` never deletes it),
contradicting "the conversations store no longer contains it". -/
theorem c7_conversation_not_removed_counterexample :
    timedOutWorld.now - 0 > 60000 ∧
    (timedOutSweep.conversations.map (fun c => c.id)) = [0] ∧
    (getAgent timedOutSweep "bob").map (fun a => a.currentConversation) =
      some none ∧
    (getAgent timedOutSweep "pete").map (fun a => a.currentConversation) =
      some none :=
  of_decide_eq_true (by with_unfolding_all rfl)

/-- C8 counterexample.  `endConversation` does not merely clear
`currentConversationId`: it immediately runs the decision engine on each
participant.  Ending Bob and Pete's conversation (all random draws 9/10)
appends a rest memory to Bob (2 → 3 entries) and sets Pete moving with a
fresh target — memories, `isMoving` and `targetPosition` all change
within the call itself, contradicting the frame claim. -/
theorem c8_endConversation_frame_counterexample :
    (getAgent timedOutWorld "bob").map (fun a => a.memories.length) = some 2 ∧
    (getAgent timedOutEnd "bob").map (fun a => a.memories.length) = some 3 ∧
    (getAgent timedOutWorld "pete").map (fun a => a.isMoving) = some false ∧
    (getAgent timedOutEnd "pete").map (fun a => a.isMoving) = some true :=
  of_decide_eq_true (by with_unfolding_all rfl)

/-- C9.  The 10-entry memory cap is enforced only by the explore branch
of `executeDecision`; `giveNPCGoal` and the idle branch push without
trimming.  Nine `giveNPCGoal("bob", ...)` calls (each appending a goal
note and, through the forced re-evaluation, an idle rest note) grow
Bob's memory list from 2 to 20 entries, violating the claimed bound. -/
theorem c9_memory_bound_violated :
    (getAgent initState "bob").map (fun a => a.memories.length) = some 2 ∧
    (getAgent nineGoalsWorld "bob").map (fun a => a.memories.length) =
      some 20 :=
  of_decide_eq_true (by with_unfolding_all rfl)

/-- C10.  `clearWorld` empties both registries and re-runs
`initializeAgents`: whatever agents (user characters, custom NPCs) and
conversations the state held, afterwards the agent registry is exactly
the five default NPCs — lucky, bob, stella, alice, pete — at their fixed
initial positions, not moving, in no conversation and not
user-controlled, and the conversation registry is empty. -/
theorem c10_clearWorld_resets (s : SimState) :
    (clearWorld s).agents = initialAgents ∧
    (clearWorld s).conversations = [] ∧
    initialAgents.map (fun a =>
      (a.id, a.position, a.isMoving, a.currentConversation,
        a.isUserControlled)) =
      [("lucky", ⟨200, 300⟩, false, none, false),
       ("bob", ⟨400, 200⟩, false, none, false),
       ("stella", ⟨600, 400⟩, false, none, false),
       ("alice", ⟨350, 500⟩, false, none, false),
       ("pete", ⟨300, 600⟩, false, none, false)] :=
  ⟨rfl, rfl, of_decide_eq_true (by with_unfolding_all rfl)⟩

/-! ## Fidelity of the squared distance comparisons -/

/-- `distSq` is nonnegative. -/
theorem distSq_nonneg (p q : Pos) : 0 ≤ distSq p q := by
  have hx := mul_self_nonneg (p.x - q.x)
  have hy := mul_self_nonneg (p.y - q.y)
  unfold distSq
  linarith

/-- `closerThan p q c` is exactly the source comparison
`getDistance(p, q) < c` for a positive threshold. -/
theorem closerThan_iff (p q : Pos) (c : ℚ) (hc : 0 < c) :
    closerThan p q c = true ↔ getDistance p q < (c : ℝ) := by
  have h := Real.sqrt_lt' (x := ((distSq p q : ℚ) : ℝ)) (y := (c : ℝ))
    (by exact_mod_cast hc)
  unfold closerThan getDistance
  rw [h]
  rw [decide_eq_true_iff]
  constructor
  · intro hlt
    have : ((distSq p q : ℚ) : ℝ) < ((c * c : ℚ) : ℝ) := by exact_mod_cast hlt
    calc ((distSq p q : ℚ) : ℝ) < ((c * c : ℚ) : ℝ) := this
      _ = (c : ℝ) ^ 2 := by push_cast; ring
  · intro hlt
    have : ((distSq p q : ℚ) : ℝ) < ((c * c : ℚ) : ℝ) := by
      calc ((distSq p q : ℚ) : ℝ) < (c : ℝ) ^ 2 := hlt
        _ = ((c * c : ℚ) : ℝ) := by push_cast; ring
    exact_mod_cast this

/-- `fartherThan p q c` is exactly `getDistance(p, q) > c` for a
nonnegative threshold. -/
theorem fartherThan_iff (p q : Pos) (c : ℚ) (hc : 0 ≤ c) :
    fartherThan p q c = true ↔ (c : ℝ) < getDistance p q := by
  have h := Real.lt_sqrt (x := (c : ℝ)) (y := ((distSq p q : ℚ) : ℝ))
    (by exact_mod_cast hc)
  unfold fartherThan getDistance
  rw [h]
  rw [decide_eq_true_iff]
  constructor
  · intro hlt
    have : ((c * c : ℚ) : ℝ) < ((distSq p q : ℚ) : ℝ) := by exact_mod_cast hlt
    calc (c : ℝ) ^ 2 = ((c * c : ℚ) : ℝ) := by push_cast; ring
      _ < _ := this
  · intro hlt
    have : ((c * c : ℚ) : ℝ) < ((distSq p q : ℚ) : ℝ) := by
      calc ((c * c : ℚ) : ℝ) = (c : ℝ) ^ 2 := by push_cast; ring
        _ < _ := hlt
    exact_mod_cast this

/-- `withinDist p q c` is exactly `getDistance(p, q) <= c` for a
nonnegative threshold. -/
theorem withinDist_iff (p q : Pos) (c : ℚ) (hc : 0 ≤ c) :
    withinDist p q c = true ↔ getDistance p q ≤ (c : ℝ) := by
  unfold withinDist getDistance
  rw [Real.sqrt_le_iff, decide_eq_true_iff]
  constructor
  · intro hle
    refine ⟨by exact_mod_cast hc, ?_⟩
    have : ((distSq p q : ℚ) : ℝ) ≤ ((c * c : ℚ) : ℝ) := by exact_mod_cast hle
    calc ((distSq p q : ℚ) : ℝ) ≤ ((c * c : ℚ) : ℝ) := this
      _ = (c : ℝ) ^ 2 := by push_cast; ring
  · rintro ⟨-, hle⟩
    have : ((distSq p q : ℚ) : ℝ) ≤ ((c * c : ℚ) : ℝ) := by
      calc ((distSq p q : ℚ) : ℝ) ≤ (c : ℝ) ^ 2 := hle
        _ = ((c * c : ℚ) : ℝ) := by push_cast; ring
    exact_mod_cast this

theorem updateMovement_of_not_moving (a : MovAgent) (h : a.isMoving = false) :
    updateMovement a = a := by
  unfold updateMovement
  rw [h]

theorem updateMovement_far (a : MovAgent) (t : ℝ × ℝ)
    (hm : a.isMoving = true) (ht : a.targetPosition = some t)
    (h5 : 5 ≤ euclidDist a.position t) :
    (updateMovement a).isMoving = true ∧
    (updateMovement a).targetPosition = some t ∧
    euclidDist (updateMovement a).position t = euclidDist a.position t - 2 := by
  set dx := t.1 - a.position.1 with hdx
  set dy := t.2 - a.position.2 with hdy
  set S := dx * dx + dy * dy with hS
  have hSnn : (0:ℝ) ≤ S :=
    add_nonneg (mul_self_nonneg dx) (mul_self_nonneg dy)
  have hdist : euclidDist a.position t = Real.sqrt S := by
    unfold euclidDist; rfl
  have hdpos : (0:ℝ) < Real.sqrt S := by
    rw [hdist] at h5; linarith
  have hnotlt : ¬ (Real.sqrt S < 5) := by rw [hdist] at h5; linarith
  have hstep : updateMovement a =
      { a with position :=
          (a.position.1 + dx / Real.sqrt S * 2, a.position.2 + dy / Real.sqrt S * 2) } := by
    unfold updateMovement
    rw [hm, ht]
    simp only [← hdx, ← hdy, ← hS, if_neg hnotlt]
  have hfac : (0:ℝ) < 1 - 2 / Real.sqrt S := by
    have hd5 : (5:ℝ) ≤ Real.sqrt S := by rw [hdist] at h5; exact h5
    have h2 : 2 / Real.sqrt S < 1 := by
      rw [div_lt_one hdpos]; linarith
    linarith
  have hne : Real.sqrt S ≠ 0 := ne_of_gt hdpos
  have harg : (t.1 - (a.position.1 + dx / Real.sqrt S * 2)) *
        (t.1 - (a.position.1 + dx / Real.sqrt S * 2)) +
      (t.2 - (a.position.2 + dy / Real.sqrt S * 2)) *
        (t.2 - (a.position.2 + dy / Real.sqrt S * 2)) =
      ((1 - 2 / Real.sqrt S) ^ 2) * S := by
    have e1 : t.1 - (a.position.1 + dx / Real.sqrt S * 2) =
        dx * (1 - 2 / Real.sqrt S) := by
      rw [hdx]; ring
    have e2 : t.2 - (a.position.2 + dy / Real.sqrt S * 2) =
        dy * (1 - 2 / Real.sqrt S) := by
      rw [hdy]; ring
    rw [e1, e2, hS]; ring
  rw [hstep, hdist]
  refine ⟨hm, ht, ?_⟩
  unfold euclidDist
  dsimp only
  rw [harg, Real.sqrt_mul (sq_nonneg _) S, Real.sqrt_sq (le_of_lt hfac),
    sub_mul, one_mul, div_mul_cancel₀ _ hne]

theorem updateMovement_near (a : MovAgent) (t : ℝ × ℝ)
    (hm : a.isMoving = true) (ht : a.targetPosition = some t)
    (h5 : euclidDist a.position t < 5) :
    updateMovement a = { a with isMoving := false, targetPosition := none } := by
  have hlt : Real.sqrt ((t.1 - a.position.1) * (t.1 - a.position.1) +
      (t.2 - a.position.2) * (t.2 - a.position.2)) < 5 := h5
  unfold updateMovement
  rw [hm, ht]
  simp only [if_pos hlt]

theorem movement_terminates_aux :
    ∀ (n : ℕ) (a : MovAgent) (t : ℝ × ℝ),
      a.isMoving = true → a.targetPosition = some t →
      euclidDist a.position t ≤ 2 * n + 3 →
      (updateMovement^[n + 1] a).isMoving = false ∧
      (updateMovement^[n + 1] a).targetPosition = none := by
  intro n
  induction n with
  | zero =>
    intro a t hm ht hd
    have h5 : euclidDist a.position t < 5 := by
      push_cast at hd
      linarith
    simp only [zero_add, Function.iterate_one]
    rw [updateMovement_near a t hm ht h5]
    exact ⟨rfl, rfl⟩
  | succ n ih =>
    intro a t hm ht hd
    rw [Function.iterate_succ_apply]
    by_cases h5 : euclidDist a.position t < 5
    · rw [updateMovement_near a t hm ht h5]
      rw [Function.iterate_fixed (updateMovement_of_not_moving _ rfl)]
      exact ⟨rfl, rfl⟩
    · push_neg at h5
      obtain ⟨hm2, ht2, hd2⟩ := updateMovement_far a t hm ht h5
      apply ih (updateMovement a) t hm2 ht2
      rw [hd2]
      push_cast at hd ⊢
      linarith

/-- C5.  Movement convergence: for an agent that is moving toward a
fixed target, (i) while the distance to the target is at least the
5-unit arrival threshold, one `updateMovement` tick keeps it moving
toward the same target and decreases the Euclidean distance by exactly
the speed 2 (hence strictly); (ii) once the distance is below 5 the tick
clears `isMoving` and `targetPosition`; (iii) the agent arrives — flags
cleared — within `n + 1` ticks whenever the initial distance is at most
`2 n + 3`, a bound proportional to initial distance / speed. -/
theorem c5_movement_convergence (a : MovAgent) (t : ℝ × ℝ)
    (hm : a.isMoving = true) (ht : a.targetPosition = some t) :
    (5 ≤ euclidDist a.position t →
      euclidDist (updateMovement a).position t =
        euclidDist a.position t - 2 ∧
      (updateMovement a).isMoving = true ∧
      (updateMovement a).targetPosition = some t) ∧
    (euclidDist a.position t < 5 →
      updateMovement a = { a with isMoving := false, targetPosition := none }) ∧
    (∀ n : ℕ, euclidDist a.position t ≤ 2 * n + 3 →
      (updateMovement^[n + 1] a).isMoving = false ∧
      (updateMovement^[n + 1] a).targetPosition = none) := by
  refine ⟨fun h5 => ?_, fun h5 => updateMovement_near a t hm ht h5,
    fun n hd => movement_terminates_aux n a t hm ht hd⟩
  obtain ⟨h1, h2, h3⟩ := updateMovement_far a t hm ht h5
  exact ⟨h3, h1, h2⟩

/-- C5 witness: an agent at the origin moving to (9, 0) (distance 9)
loses exactly distance 2 on the first tick and has arrived — `isMoving`
false, target cleared — after 4 ticks. -/
theorem c5_witness :
    euclidDist
        (updateMovement ⟨((0:ℝ), (0:ℝ)), some ((9:ℝ), (0:ℝ)), true⟩).position
        ((9:ℝ), (0:ℝ)) =
      euclidDist ((⟨((0:ℝ), (0:ℝ)), some ((9:ℝ), (0:ℝ)), true⟩ : MovAgent)).position
        ((9:ℝ), (0:ℝ)) - 2 ∧
    (updateMovement^[4]
      (⟨((0:ℝ), (0:ℝ)), some ((9:ℝ), (0:ℝ)), true⟩ : MovAgent)).isMoving = false ∧
    (updateMovement^[4]
      (⟨((0:ℝ), (0:ℝ)), some ((9:ℝ), (0:ℝ)), true⟩ : MovAgent)).targetPosition = none := by
  have h9 : euclidDist
      ((⟨((0:ℝ), (0:ℝ)), some ((9:ℝ), (0:ℝ)), true⟩ : MovAgent)).position
      ((9:ℝ), (0:ℝ)) = 9 := by
    unfold euclidDist
    dsimp only
    rw [show ((9:ℝ) - 0) * ((9:ℝ) - 0) + ((0:ℝ) - 0) * ((0:ℝ) - 0) = 81 by norm_num]
    rw [show (81:ℝ) = 9 ^ 2 by norm_num, Real.sqrt_sq (by norm_num : (0:ℝ) ≤ 9)]
  have hc := c5_movement_convergence
    (⟨((0:ℝ), (0:ℝ)), some ((9:ℝ), (0:ℝ)), true⟩ : MovAgent) ((9:ℝ), (0:ℝ)) rfl rfl
  refine ⟨(hc.1 ?_).1, ?_, ?_⟩
  · rw [h9]; norm_num
  · exact (hc.2.2 3 (by rw [h9]; push_cast; norm_num)).1
  · exact (hc.2.2 3 (by rw [h9]; push_cast; norm_num)).2

theorem splitSentenceRuns_ne_nil (l : List Char) : splitSentenceRuns l ≠ [] := by
  induction l with
  | nil => simp [splitSentenceRuns]
  | cons c t ih =>
    rw [splitSentenceRuns.eq_def]
    by_cases hc : isTermChar c
    · simp only [hc, if_true]
      match t with
      | [] => simp
      | t0 :: ts =>
        by_cases h0 : isTermChar t0
        · simpa [h0] using ih
        · simp [h0]
    · simp only [hc, if_false]
      match hsp : splitSentenceRuns t with
      | [] => simp
      | s :: rs => simp

theorem splitSentenceRuns_append_of_clean (p : List Char) :
    ∀ (l : List Char) (s : List Char) (rs : List (List Char)),
      (∀ c ∈ p, isTermChar c = false) →
      splitSentenceRuns l = s :: rs →
      splitSentenceRuns (p ++ l) = (p ++ s) :: rs := by
  induction p with
  | nil => intro l s rs _ h; simpa using h
  | cons c p' ih =>
    intro l s rs hclean h
    have hc : isTermChar c = false := hclean c (List.mem_cons_self c p')
    have hrec := ih l s rs (fun x hx => hclean x (List.mem_cons_of_mem c hx)) h
    rw [List.cons_append, splitSentenceRuns.eq_def]
    simp only [hc, Bool.false_eq_true, if_false]
    rw [hrec]
    rfl

theorem intercalate_cons₂ (s a b : List Char) (t : List (List Char)) :
    List.intercalate s (a :: b :: t) = a ++ s ++ List.intercalate s (b :: t) := by
  simp [List.intercalate, List.intersperse]

theorem splitSentenceRuns_dot_cons (l : List Char)
    (h : l = [] ∨ ∃ c0 l', l = c0 :: l' ∧ isTermChar c0 = false) :
    splitSentenceRuns ('.' :: l) = [] :: splitSentenceRuns l := by
  rw [splitSentenceRuns.eq_def]
  have hdot : isTermChar '.' = true := by decide
  rcases h with h | ⟨c0, l', hl, hc0⟩
  · subst h
    simp [hdot]
  · subst hl
    simp [hdot, hc0]

theorem splitSentenceRuns_roundtrip :
    ∀ (parts : List (List Char)), parts ≠ [] →
      (∀ p ∈ parts, p ≠ [] ∧ ∀ c ∈ p, isTermChar c = false) →
      splitSentenceRuns (List.intercalate ['.'] parts ++ ['.']) = parts ++ [[]] := by
  intro parts
  induction parts with
  | nil => intro h; exact absurd rfl h
  | cons p parts' ih =>
    intro _ hparts
    have hp := hparts p (List.mem_cons_self p parts')
    match parts' with
    | [] =>
      have h1 : List.intercalate ['.'] [p] = p := by
        simp [List.intercalate, List.intersperse]
      rw [h1]
      have hdot : splitSentenceRuns ['.'] = [[], []] := by
        rw [splitSentenceRuns.eq_def]
        simp [isTermChar]
        rfl
      have := splitSentenceRuns_append_of_clean p ['.'] [] [[]] hp.2 hdot
      simpa using this
    | q :: t =>
      have hq := hparts q (List.mem_cons_of_mem p (List.mem_cons_self q t))
      have hrest := ih (by simp) (fun x hx => hparts x (List.mem_cons_of_mem p hx))
      rw [intercalate_cons₂]
      have hshape : p ++ ['.'] ++ List.intercalate ['.'] (q :: t) ++ ['.'] =
          p ++ ('.' :: (List.intercalate ['.'] (q :: t) ++ ['.'])) := by
        simp
      rw [hshape]
      obtain ⟨c0, q', hq'⟩ : ∃ c0 q', q = c0 :: q' := by
        match q, hq.1 with
        | c0 :: q', _ => exact ⟨c0, q', rfl⟩
      have hc0 : isTermChar c0 = false := by
        apply hq.2
        rw [hq']
        exact List.mem_cons_self c0 q'
      obtain ⟨r, hr⟩ : ∃ r, List.intercalate ['.'] (q :: t) = q ++ r := by
        match t with
        | [] => exact ⟨[], by simp [List.intercalate, List.intersperse]⟩
        | b :: t' => exact ⟨['.'] ++ List.intercalate ['.'] (b :: t'), by
            rw [intercalate_cons₂]; simp⟩
      have hcons : splitSentenceRuns ('.' :: (List.intercalate ['.'] (q :: t) ++ ['.'])) =
          [] :: splitSentenceRuns (List.intercalate ['.'] (q :: t) ++ ['.']) := by
        apply splitSentenceRuns_dot_cons
        right
        refine ⟨c0, q' ++ r ++ ['.'], ?_, hc0⟩
        rw [hr, hq']
        simp
      have hrest2 : splitSentenceRuns (List.intercalate ['.'] (q :: t) ++ ['.']) =
          q :: (t ++ [[]]) := by
        rw [hrest]
        simp
      have := splitSentenceRuns_append_of_clean p
        ('.' :: (List.intercalate ['.'] (q :: t) ++ ['.']))
        [] (q :: (t ++ [[]])) hp.2 (by rw [hcons, hrest2])
      rw [this]
      simp

/-- C3 (amended).  `cleanResponse` is the identity exactly on already
clean inputs whose sentence structure survives the re-join: for a string
assembled from nonempty terminator-free sentence segments joined and
terminated by single periods — with no leading speaker-name echo, no
newline, length within the 200 cap, and already trimmed — the sanitizer
returns the string unchanged.  (The original claim fails for strings
using '!' or '?' or repeated terminators, which the re-join rewrites to
single periods; see the counterexample.) -/
theorem c3_cleanResponse_idempotent_amended (name : List Char)
    (parts : List (List Char)) (hne : parts ≠ [])
    (hparts : ∀ p ∈ parts, p ≠ [] ∧ ∀ c ∈ p, isTermChar c = false)
    (hecho : stripNameEcho name (List.intercalate ['.'] parts ++ ['.']) =
      List.intercalate ['.'] parts ++ ['.'])
    (hnl : '\n' ∉ List.intercalate ['.'] parts ++ ['.'])
    (hlen : (List.intercalate ['.'] parts ++ ['.']).length ≤ 200)
    (htrim : jsTrim (List.intercalate ['.'] parts ++ ['.']) =
      List.intercalate ['.'] parts ++ ['.']) :
    cleanResponseL (List.intercalate ['.'] parts ++ ['.']) name =
      List.intercalate ['.'] parts ++ ['.'] := by
  have hsplit := splitSentenceRuns_roundtrip parts hne hparts
  have hsne : List.intercalate ['.'] parts ++ ['.'] ≠ [] := by simp
  simp only [cleanResponseL]
  rw [hecho]
  have htake : (List.intercalate ['.'] parts ++ ['.']).takeWhile
      (fun c => c ≠ '\n') = List.intercalate ['.'] parts ++ ['.'] := by
    rw [List.takeWhile_eq_self_iff]
    intro x hx
    simp only [ne_eq, decide_eq_true_iff]
    intro h
    exact hnl (h ▸ hx)
  rw [htake]
  rw [List.take_of_length_le hlen]
  rw [htrim]
  rw [hsplit]
  have hlen2 : (parts ++ [([] : List Char)]).length > 1 := by
    have : parts.length ≥ 1 := by
      cases parts with
      | nil => exact absurd rfl hne
      | cons a l => simp
      
    simp only [List.length_append, List.length_singleton]
    omega
  rw [if_pos hlen2]
  rw [List.dropLast_concat]
  rw [if_neg hsne]

/-- C3 witness: "Hi. there." is returned verbatim. -/
theorem c3_witness :
    cleanResponseL "Hi. there.".data "Bob".data = "Hi. there.".data := by
  have he : List.intercalate ['.'] ["Hi".data, " there".data] ++ ['.'] =
      "Hi. there.".data := by decide
  have h := c3_cleanResponse_idempotent_amended "Bob".data
    ["Hi".data, " there".data] (by decide) (by decide) (by rw [he]; decide)
    (by rw [he]; decide) (by rw [he]; decide) (by rw [he]; decide)
  rw [he] at h
  exact h

/-- C6 (amended).  Precondition violations on control operations do
return boolean failures without throwing — `sendUserMessage` to a target
already in a conversation returns `false` leaving the state unchanged,
and `moveUserCharacter` on an existing non-user-controlled agent returns
`false` — but there is no self-send check: a free user-controlled agent
messaging itself returns `true` (see the counterexample), not `false` as
claimed.  The embedding is total, so no path throws. -/
theorem c6_amended :
    (∀ (fuel : ℕ) (σ : ℕ → ℚ) (llm : LLMOutcome) (s : SimState)
        (uid msg tid : String),
      (getAgent s uid).any (fun u => u.isUserControlled) = true →
      (getAgent s tid).any (fun t => t.currentConversation.isSome) = true →
      sendUserMessage fuel σ llm s uid msg (some tid) = (false, s)) ∧
    (∀ (s : SimState) (uid : String) (p : Pos),
      (getAgent s uid).any (fun a => !a.isUserControlled) = true →
      moveUserCharacter s uid p = (false, s)) ∧
    (∀ (fuel : ℕ) (σ : ℕ → ℚ) (llm : LLMOutcome) (s : SimState)
        (uid msg : String),
      (getAgent s uid).any (fun u =>
        u.isUserControlled && u.currentConversation.isNone) = true →
      (sendUserMessage fuel σ llm s uid msg (some uid)).1 = true) := by
  refine ⟨?_, ?_, ?_⟩
  · intro fuel σ llm s uid msg tid h1 h2
    match hu : getAgent s uid with
    | none => rw [hu] at h1; simp at h1
    | some u =>
      rw [hu] at h1
      simp only [Option.any_some] at h1
      match ht : getAgent s tid with
      | none => rw [ht] at h2; simp at h2
      | some target =>
        rw [ht] at h2
        simp only [Option.any_some] at h2
        simp only [sendUserMessage, hu, ht, h1, h2, Bool.not_true,
          Bool.false_eq_true, if_false, if_true]
  · intro s uid p h
    match hu : getAgent s uid with
    | none => rw [hu] at h; simp at h
    | some a =>
      rw [hu] at h
      simp only [Option.any_some, Bool.not_eq_true'] at h
      simp only [moveUserCharacter, hu, h, Bool.not_false, if_true]
  · intro fuel σ llm s uid msg h
    match hu : getAgent s uid with
    | none => rw [hu] at h; simp at h
    | some u =>
      rw [hu] at h
      simp only [Option.any_some, Bool.and_eq_true] at h
      obtain ⟨h1, h2⟩ := h
      have h3 : u.currentConversation.isSome = false := by
        rcases hcc : u.currentConversation with _ | c
        · rfl
        · rw [hcc] at h2; simp at h2
      have hfar : fartherThan u.position u.position 80 = false := by
        unfold fartherThan distSq
        simp only [sub_self, mul_zero, zero_mul, add_zero, zero_add]
        rw [decide_eq_false_iff_not]
        norm_num
      simp only [sendUserMessage, hu, h1, h2, h3, hfar, Bool.not_true,
        Bool.false_eq_true, if_false, if_true]
      repeat' split
      all_goals rfl

/-- C6 witness: in the scanned triangle world, user_0 messaging the
busy Lucky fails with `false`; moving the NPC Bob through the user-move
API fails with `false`; the freshly added free user messaging itself
returns `true`. -/
theorem c6_witness :
    sendUserMessage 10 oracleHalf LLMOutcome.notReady triangleScan
      "user_0" "x" (some "lucky") = (false, triangleScan) ∧
    moveUserCharacter initState "bob" ⟨0, 0⟩ = (false, initState) ∧
    (sendUserMessage 10 oracleHalf LLMOutcome.notReady selfSendAdd.2
      "user_0" "hello" (some "user_0")).1 = true := by
  refine ⟨?_, ?_, ?_⟩
  · exact c6_amended.1 10 oracleHalf LLMOutcome.notReady triangleScan
      "user_0" "x" "lucky" (of_decide_eq_true (by with_unfolding_all rfl))
      (of_decide_eq_true (by with_unfolding_all rfl))
  · exact c6_amended.2.1 initState "bob" ⟨0, 0⟩
      (of_decide_eq_true (by with_unfolding_all rfl))
  · exact c6_amended.2.2 10 oracleHalf LLMOutcome.notReady selfSendAdd.2
      "user_0" "hello" (of_decide_eq_true (by with_unfolding_all rfl))

theorem find?_map_invariant {α : Type} (p : α → Bool) (g : α → α)
    (hg : ∀ a, p (g a) = p a) :
    ∀ l : List α, (l.map g).find? p = (l.find? p).map g := by
  intro l
  induction l with
  | nil => rfl
  | cons a l ih =>
    simp only [List.map_cons, List.find?]
    rw [hg a]
    cases hpa : p a
    · simpa [hpa] using ih
    · simp [hpa]

theorem getAgent_updateAgent (s : SimState) (i j : String)
    (f : Agent → Agent) (hf : ∀ a, (f a).id = a.id) :
    getAgent (updateAgent s j f) i =
      (getAgent s i).map (fun a => if a.id = j then f a else a) := by
  unfold getAgent updateAgent
  exact find?_map_invariant _ _
    (fun a => by
      by_cases h : a.id = j
      · simp [h, hf a]
      · simp [h]) s.agents

theorem getAgent_updateAgent_ne (s : SimState) (i j : String)
    (f : Agent → Agent) (hf : ∀ a, (f a).id = a.id) (hij : i ≠ j) :
    getAgent (updateAgent s j f) i = getAgent s i := by
  rw [getAgent_updateAgent s i j f hf]
  cases hfind : getAgent s i with
  | none => rfl
  | some a =>
    have ha : a.id = i := by
      have := List.find?_some hfind
      simpa using this
    simp [ha, hij]

theorem getAgent_updateAgent_eq (s : SimState) (j : String)
    (f : Agent → Agent) (hf : ∀ a, (f a).id = a.id) :
    getAgent (updateAgent s j f) j = (getAgent s j).map f := by
  rw [getAgent_updateAgent s j j f hf]
  cases hfind : getAgent s j with
  | none => rfl
  | some a =>
    have ha : a.id = j := by
      have := List.find?_some hfind
      simpa using this
    simp [ha]

theorem runEngine_makeDec_user (fuel : ℕ) (σ : ℕ → ℚ) (llm : LLMOutcome)
    (s : SimState) (aid : String)
    (h : (getAgent s aid).any (fun a => a.isUserControlled) = true) :
    runEngine fuel σ llm s (EngineCall.makeDec aid) = s := by
  cases fuel with
  | zero => rfl
  | succ g =>
    match hu : getAgent s aid with
    | none => rw [hu] at h; simp at h
    | some u =>
      rw [hu] at h
      simp only [Option.any_some] at h
      simp only [runEngine, hu, h, if_true]

theorem runEngine_moveRnd_user (fuel : ℕ) (σ : ℕ → ℚ) (llm : LLMOutcome)
    (s : SimState) (aid : String)
    (h : (getAgent s aid).any (fun a => a.isUserControlled) = true) :
    runEngine fuel σ llm s (EngineCall.moveRnd aid) = s := by
  cases fuel with
  | zero => rfl
  | succ g =>
    simp only [runEngine]
    exact runEngine_makeDec_user g σ llm s aid h

/-- C8 (amended).  `endConversation` clears each participant's
`currentConversation` and immediately runs the decision engine on it.
The claimed frame only holds when the decision engine has nothing to do:
for a conversation between two (distinct) user-controlled agents,
`makeIntelligentDecision` returns immediately, so the whole call equals
the state with exactly the two participants' `currentConversation`
cleared and every other field of every agent, and every other state
component, unchanged.  For NPC participants the same call may change
`isMoving`, `targetPosition` and `memories` (see the counterexample). -/
theorem c8_amended (fuel : ℕ) (σ : ℕ → ℚ) (llm : LLMOutcome)
    (s : SimState) (cid : ℕ) (conv : Conversation) (i1 i2 : String)
    (hconv : getConv s cid = some conv)
    (hp : conv.participants = [i1, i2])
    (hne : i1 ≠ i2)
    (h1 : (getAgent s i1).any (fun a => a.isUserControlled) = true)
    (h2 : (getAgent s i2).any (fun a => a.isUserControlled) = true) :
    endConversation (fuel + 1) σ llm s cid =
      { s with agents := s.agents.map (fun a =>
          if a.id = i1 ∨ a.id = i2 then
            { a with currentConversation := none }
          else a) } := by
  have hclear : ∀ (x : Agent),
      ({ x with currentConversation := none } : Agent).id = x.id :=
    fun _ => rfl
  obtain ⟨u1, hu1⟩ : ∃ u, getAgent s i1 = some u := by
    cases hg : getAgent s i1 with
    | none => rw [hg] at h1; simp at h1
    | some u => exact ⟨u, rfl⟩
  unfold endConversation
  simp only [runEngine, hconv, hp]
  simp only [List.foldl_cons, List.foldl_nil]
  rw [hu1]
  set s1 := updateAgent s i1 (fun a => { a with currentConversation := none })
    with hs1
  have hmv1 : runEngine fuel σ llm s1 (EngineCall.moveRnd i1) = s1 := by
    apply runEngine_moveRnd_user
    rw [hs1, getAgent_updateAgent_eq s i1 _ hclear, hu1]
    rw [hu1] at h1
    simpa using h1
  rw [hmv1]
  have hg2 : getAgent s1 i2 = getAgent s i2 :=
    getAgent_updateAgent_ne s i2 i1 _ hclear (fun h => hne h.symm)
  obtain ⟨u2, hu2⟩ : ∃ u, getAgent s1 i2 = some u := by
    rw [hg2]
    cases hg : getAgent s i2 with
    | none => rw [hg] at h2; simp at h2
    | some u => exact ⟨u, rfl⟩
  rw [hu2]
  set s2 := updateAgent s1 i2 (fun a => { a with currentConversation := none })
    with hs2
  have hmv2 : runEngine fuel σ llm s2 (EngineCall.moveRnd i2) = s2 := by
    apply runEngine_moveRnd_user
    rw [hs2, getAgent_updateAgent_eq s1 i2 _ hclear, hu2]
    rw [hg2] at hu2
    rw [hu2] at h2
    simpa using h2
  rw [hmv2]
  rw [hs2, hs1]
  unfold updateAgent
  simp only [List.map_map]
  congr 1
  apply List.map_congr_left
  intro a _
  simp only [Function.comp_apply]
  by_cases ha1 : a.id = i1
  · rw [if_pos ha1]
    have hid : ({ a with currentConversation := none } : Agent).id = a.id := rfl
    rw [if_neg (by rw [hid]; exact fun h => hne (ha1.symm.trans h))]
    rw [if_pos (Or.inl ha1)]
  · rw [if_neg ha1]
    by_cases ha2 : a.id = i2
    · rw [if_pos ha2, if_pos (Or.inr ha2)]
    · rw [if_neg ha2, if_neg (by tauto)]

/-- C8 witness: ending the conversation between the two user agents of
`twoUserWorld` only clears their `currentConversation`. -/
theorem c8_witness :
    endConversation 3 oracleHalf LLMOutcome.notReady twoUserWorld 0 =
      { twoUserWorld with agents := twoUserWorld.agents.map (fun a =>
          if a.id = "u1" ∨ a.id = "u2" then
            { a with currentConversation := none }
          else a) } := by
  exact c8_amended 2 oracleHalf LLMOutcome.notReady twoUserWorld 0
    ⟨0, ["u1", "u2"], [], 0, 0⟩ "u1" "u2"
    (of_decide_eq_true (by with_unfolding_all rfl)) rfl (by decide)
    (of_decide_eq_true (by with_unfolding_all rfl))
    (of_decide_eq_true (by with_unfolding_all rfl))

/-- Conversation evolution: the target state still holds every
conversation of the source state, with identity fields intact and the
message list only extended (the engine never deletes a conversation or
rewrites an existing message). -/
def ConvExtends (s s' : SimState) : Prop :=
  ∀ cid c, getConv s cid = some c →
    ∃ c', getConv s' cid = some c' ∧ c'.id = c.id ∧
      c'.participants = c.participants ∧ c'.startTime = c.startTime ∧
      ∃ r, c'.messages = c.messages ++ r

theorem convExtends_refl (s : SimState) : ConvExtends s s :=
  fun _ c h => ⟨c, h, rfl, rfl, rfl, [], (List.append_nil _).symm⟩

theorem convExtends_trans {s t u : SimState}
    (h1 : ConvExtends s t) (h2 : ConvExtends t u) : ConvExtends s u := by
  intro cid c hc
  obtain ⟨c1, hc1, hid1, hp1, hst1, r1, hm1⟩ := h1 cid c hc
  obtain ⟨c2, hc2, hid2, hp2, hst2, r2, hm2⟩ := h2 cid c1 hc1
  exact ⟨c2, hc2, hid2.trans hid1, hp2.trans hp1, hst2.trans hst1,
    r1 ++ r2, by rw [hm2, hm1, List.append_assoc]⟩

theorem convExtends_of_conversations_eq {s s' : SimState}
    (h : s'.conversations = s.conversations) : ConvExtends s s' := by
  intro cid c hc
  refine ⟨c, ?_, rfl, rfl, rfl, [], (List.append_nil _).symm⟩
  unfold getConv at hc ⊢
  rw [h]
  exact hc

theorem find?_append_of_some {α : Type} (p : α → Bool) (l1 l2 : List α)
    (a : α) (h : l1.find? p = some a) : (l1 ++ l2).find? p = some a := by
  induction l1 with
  | nil => simp [List.find?] at h
  | cons x l ih =>
    rw [List.cons_append, List.find?]
    rw [List.find?] at h
    cases hx : p x
    · rw [hx] at h
      simp only at h
      exact ih h
    · rw [hx] at h
      simpa using h

theorem convExtends_of_conversations_append {s s' : SimState}
    (l : List Conversation)
    (h : s'.conversations = s.conversations ++ l) : ConvExtends s s' := by
  intro cid c hc
  refine ⟨c, ?_, rfl, rfl, rfl, [], (List.append_nil _).symm⟩
  unfold getConv at hc ⊢
  rw [h]
  exact find?_append_of_some _ _ _ _ hc

theorem find?_push_map (l : List Conversation) (cid cid0 : ℕ)
    (m : ConvMessage) (c : Conversation)
    (hc : l.find? (fun c => c.id = cid0) = some c) :
    (l.map (fun c => if c.id = cid then
        { c with messages := c.messages ++ [m] } else c)).find?
      (fun c => c.id = cid0) =
      some (if c.id = cid then { c with messages := c.messages ++ [m] }
        else c) := by
  induction l with
  | nil => simp [List.find?] at hc
  | cons a t ih =>
    rw [List.find?] at hc
    rw [List.map_cons, List.find?]
    have hidpres : (if a.id = cid then
        ({ a with messages := a.messages ++ [m] } : Conversation)
      else a).id = a.id := by
      by_cases h : a.id = cid <;> simp [h]
    cases hpa : decide (a.id = cid0) with
    | false =>
      rw [hpa] at hc
      simp only at hc
      have : decide ((if a.id = cid then
          ({ a with messages := a.messages ++ [m] } : Conversation)
        else a).id = cid0) = false := by
        rw [hidpres]; exact hpa
      rw [this]
      simp only
      exact ih hc
    | true =>
      rw [hpa] at hc
      simp only [Option.some.injEq] at hc
      have : decide ((if a.id = cid then
          ({ a with messages := a.messages ++ [m] } : Conversation)
        else a).id = cid0) = true := by
        rw [hidpres]; exact hpa
      rw [this]
      simp only [Option.some.injEq]
      rw [hc]

theorem convExtends_pushMessage (s : SimState) (cid : ℕ) (m : ConvMessage) :
    ConvExtends s (pushMessage s cid m) := by
  intro cid0 c hc
  unfold getConv at hc
  unfold pushMessage updateConv getConv
  dsimp only
  rw [find?_push_map s.conversations cid cid0 m c hc]
  by_cases h : c.id = cid
  · exact ⟨_, rfl, by simp [h], by simp [h], by simp [h], [m], by simp [h]⟩
  · exact ⟨c, by simp [h], rfl, rfl, rfl, [], (List.append_nil _).symm⟩

theorem generateFallbackMessage_state (σ : ℕ → ℚ) (s : SimState)
    (a o : Agent) (ty : TurnType) :
    ((generateFallbackMessage σ s a o ty).2).conversations = s.conversations ∧
    ((generateFallbackMessage σ s a o ty).2).now = s.now := by
  unfold generateFallbackMessage randDraw
  cases fallbackTable a.id o.name ty <;> exact ⟨rfl, rfl⟩

theorem findInterestingDestination_conversations (σ : ℕ → ℚ) (s : SimState) :
    ((findInterestingDestination σ s).2).conversations = s.conversations := by
  unfold findInterestingDestination randDraw
  dsimp only
  split <;> rfl

theorem evaluateDecisionOptions_conversations (σ : ℕ → ℚ) (s : SimState)
    (agent : Agent) (available : List Agent) :
    ((evaluateDecisionOptions σ s agent available).2).conversations =
      s.conversations := by
  rcases h : findInterestingDestination σ s with ⟨dest, s2⟩
  have h2 := findInterestingDestination_conversations σ s
  rw [h] at h2
  unfold evaluateDecisionOptions
  rw [h]
  dsimp only
  exact h2

theorem selectDecisionWithRandomness_conversations (σ : ℕ → ℚ)
    (s : SimState) (ds : List DecisionOption) :
    ((selectDecisionWithRandomness σ s ds).2).conversations =
      s.conversations := by
  unfold selectDecisionWithRandomness randDraw
  rfl

theorem convExtends_eq_then {s t u : SimState} (h2 : ConvExtends t u)
    (heq : t.conversations = s.conversations) : ConvExtends s u :=
  convExtends_trans (convExtends_of_conversations_eq heq) h2

theorem convExtends_foldl {α : Type} (step : SimState → α → SimState)
    (h : ∀ t x, ConvExtends t (step t x)) :
    ∀ (l : List α) (t : SimState), ConvExtends t (l.foldl step t) := by
  intro l
  induction l with
  | nil => intro t; exact convExtends_refl t
  | cons x xs ih =>
    intro t
    exact convExtends_trans (h t x) (ih (step t x))

/-- Across every call into the engine cluster, existing conversations
are preserved: same id, participants and start time, and the message
list is only ever extended. -/
theorem runEngine_convExtends :
    ∀ (fuel : ℕ) (σ : ℕ → ℚ) (llm : LLMOutcome) (s : SimState)
      (call : EngineCall), ConvExtends s (runEngine fuel σ llm s call) := by
  intro fuel
  induction fuel with
  | zero => intro σ llm s call; exact convExtends_refl s
  | succ fuel ih =>
    intro σ llm s call
    cases call with
    | startC a1 a2 =>
      simp only [runEngine]
      refine convExtends_trans (convExtends_of_conversations_append _ rfl)
        (ih σ llm _ _)
    | genMsg aid ty =>
      simp only [runEngine]
      split
      · exact convExtends_refl s
      next agent _ =>
        split
        · exact convExtends_refl s
        next cid _ =>
          split
          · exact convExtends_refl s
          next conversation _ =>
            split
            · exact convExtends_refl s
            next otherAgent _ =>
              cases llm with
              | success raw =>
                dsimp only
                split
                · exact convExtends_trans (convExtends_pushMessage s cid _)
                    (convExtends_of_conversations_eq rfl)
                · exact convExtends_trans (convExtends_pushMessage s cid _)
                    (convExtends_eq_then (ih σ _ _ _) rfl)
              | failure =>
                dsimp only
                rcases hF : generateFallbackMessage σ s agent otherAgent ty with ⟨msg, s2⟩
                have hc2 : s2.conversations = s.conversations := by
                  have h0 := (generateFallbackMessage_state σ s agent otherAgent ty).1
                  rw [hF] at h0
                  exact h0
                dsimp only
                split
                · exact convExtends_trans (convExtends_of_conversations_eq hc2)
                    (convExtends_trans (convExtends_pushMessage s2 cid _)
                      (convExtends_of_conversations_eq rfl))
                · exact convExtends_trans (convExtends_of_conversations_eq hc2)
                    (convExtends_trans (convExtends_pushMessage s2 cid _)
                      (convExtends_eq_then (ih σ _ _ _) rfl))
              | notReady =>
                dsimp only
                rcases hF : generateFallbackMessage σ s agent otherAgent ty with ⟨msg, s2⟩
                have hc2 : s2.conversations = s.conversations := by
                  have h0 := (generateFallbackMessage_state σ s agent otherAgent ty).1
                  rw [hF] at h0
                  exact h0
                dsimp only
                split
                · exact convExtends_trans (convExtends_of_conversations_eq hc2)
                    (convExtends_trans (convExtends_pushMessage s2 cid _)
                      (convExtends_of_conversations_eq rfl))
                · exact convExtends_trans (convExtends_of_conversations_eq hc2)
                    (convExtends_trans (convExtends_pushMessage s2 cid _)
                      (convExtends_eq_then (ih σ _ _ _) rfl))
    | endC cid =>
      simp only [runEngine]
      split
      · exact convExtends_refl s
      next conv _ =>
        apply convExtends_foldl
        intro t x
        split
        · exact convExtends_refl t
        · exact convExtends_eq_then (ih σ llm _ _) rfl
    | moveRnd aid =>
      simp only [runEngine]
      exact ih σ llm s _
    | makeDec aid =>
      simp only [runEngine]
      split
      · exact convExtends_refl s
      next agent _ =>
        split
        · exact convExtends_refl s
        next hns =>
          rcases hE : evaluateDecisionOptions σ s agent
            ((findNearbyAgents s agent 200).filter (fun a =>
              a.currentConversation.isNone && !a.isMoving)) with ⟨ds, s2⟩
          dsimp only
          rcases hS : selectDecisionWithRandomness σ s2 ds with ⟨chosen, s3⟩
          dsimp only
          have h2 : s2.conversations = s.conversations := by
            have h0 := evaluateDecisionOptions_conversations σ s agent
              ((findNearbyAgents s agent 200).filter (fun a =>
                a.currentConversation.isNone && !a.isMoving))
            rw [hE] at h0
            exact h0
          have h3 : s3.conversations = s2.conversations := by
            have h0 := selectDecisionWithRandomness_conversations σ s2 ds
            rw [hS] at h0
            exact h0
          exact convExtends_eq_then (ih σ llm s3 _) (h3.trans h2)
    | initC a1 a2 =>
      simp only [runEngine]
      exact ih σ llm s _
    | execDec aid decision available =>
      obtain ⟨dty, pri, dtg⟩ := decision
      simp only [runEngine]
      cases dty with
      | socialize =>
        cases dtg with
        | agentT targetAgent =>
          dsimp only
          split
          · exact ih σ llm s _
          · exact convExtends_refl s
        | posT p => exact convExtends_refl s
        | noneT => exact convExtends_refl s
      | explore =>
        cases dtg with
        | agentT targetAgent => exact convExtends_refl s
        | posT p => exact convExtends_of_conversations_eq rfl
        | noneT => exact convExtends_refl s
      | return_home =>
        cases dtg with
        | agentT targetAgent => exact convExtends_refl s
        | posT p => exact convExtends_of_conversations_eq rfl
        | noneT => exact convExtends_refl s
      | idle => exact convExtends_of_conversations_eq rfl

theorem append_ne_empty_of_left (a b : String) (h : a ≠ "") : a ++ b ≠ "" := by
  intro he
  apply h
  have hd : (a ++ b).data = [] := by rw [he]
  rw [String.data_append] at hd
  have h2 := (List.append_eq_nil.mp hd).1
  cases a
  simp only at h2
  rw [h2]

theorem fallbackTable_entries (agentId otherName : String) (ty : TurnType)
    (l : List String) (h : fallbackTable agentId otherName ty = some l) :
    0 < l.length ∧ ∀ x ∈ l, x ≠ "" := by
  cases ty <;>
    (unfold fallbackTable at h
     dsimp only at h
     split_ifs at h <;>
       first
         | (simp only [Option.some.injEq] at h
            subst h
            refine ⟨by simp, ?_⟩
            intro x hx
            fin_cases hx <;>
              first
                | decide
                | ((repeat' apply append_ne_empty_of_left) <;> decide)))

theorem floor_mul_toNat_lt (r : ℚ) (n : ℕ) (h0 : 0 ≤ r) (h1 : r < 1)
    (hn : 0 < n) : (⌊r * (n : ℚ)⌋).toNat < n := by
  have hr0 : 0 ≤ r := h0
  have hnq : (0:ℚ) < (n : ℚ) := by exact_mod_cast hn
  have hlt : r * (n : ℚ) < (n : ℚ) := by nlinarith
  have hfl : ⌊r * (n : ℚ)⌋ < (n : ℤ) := by
    rw [Int.floor_lt]
    exact_mod_cast hlt
  omega

theorem getD_mem_of_lt {α : Type} (l : List α) (i : ℕ) (d : α)
    (h : i < l.length) : l.getD i d ∈ l := by
  rw [List.getD_eq_getElem?_getD, List.getElem?_eq_getElem h]
  exact List.getElem_mem h

theorem generateFallbackMessage_ne_empty (σ : ℕ → ℚ) (s : SimState)
    (a o : Agent) (ty : TurnType)
    (hσ : 0 ≤ σ s.randIdx ∧ σ s.randIdx < 1) :
    (generateFallbackMessage σ s a o ty).1 ≠ "" := by
  unfold generateFallbackMessage
  cases htab : fallbackTable a.id o.name ty with
  | none =>
    cases ty with
    | start =>
      dsimp only
      rw [if_pos rfl]
      apply append_ne_empty_of_left
      apply append_ne_empty_of_left
      decide
    | cont =>
      dsimp only
      rw [if_neg (by decide)]
      decide
  | some options =>
    dsimp only [randDraw]
    obtain ⟨hlen, hall⟩ := fallbackTable_entries a.id o.name ty options htab
    apply hall
    apply getD_mem_of_lt
    exact floor_mul_toNat_lt (σ s.randIdx) options.length hσ.1 hσ.2 hlen

/-- C4.  Fallback correctness: when the gateway is not ready or rejects
every call, `generateConversationMessage` for an agent in an active
conversation with a resolvable partner is a total function of the state
(the embedding never throws) and appends a nonempty message — the canned
archetype line or the generic default — to that conversation: the new
message list is the old one plus the agent's nonempty message (followed
only by whatever later messages the at-cap `endConversation` decision
pass may add to other conversations — the original conversation only
gains the suffix `rest` through id-collision-free extension, proved via
`runEngine_convExtends`).  The `Math.random` contract `0 ≤ σ i < 1`
guarantees the canned-line index is in bounds. -/
theorem c4_fallback_total (fuel : ℕ) (σ : ℕ → ℚ) (llm : LLMOutcome)
    (s : SimState) (aid : String) (ty : TurnType) (agent : Agent)
    (cid : ℕ) (conv : Conversation) (other : Agent)
    (hσ : ∀ i, 0 ≤ σ i ∧ σ i < 1)
    (hllm : llm = LLMOutcome.notReady ∨ llm = LLMOutcome.failure)
    (hagent : getAgent s aid = some agent)
    (hcc : agent.currentConversation = some cid)
    (hconv : getConv s cid = some conv)
    (hother : (conv.participants.find? (fun pid => pid ≠ aid)).bind
      (getAgent s) = some other) :
    ∃ (msg : String) (rest : List ConvMessage) (c' : Conversation),
      msg ≠ "" ∧
      getConv (generateConversationMessage (fuel + 1) σ llm s aid ty) cid =
        some c' ∧
      c'.messages = conv.messages ++ ⟨aid, msg, s.now⟩ :: rest := by
  have hconvid : conv.id = cid := by
    unfold getConv at hconv
    simpa using List.find?_some hconv
  unfold generateConversationMessage
  rcases hllm with rfl | rfl <;>
    (simp only [runEngine, hagent, hcc, hconv, hother]
     rcases hF : generateFallbackMessage σ s agent other ty with ⟨msg, s2⟩
     have hmsg : msg ≠ "" := by
       have h0 := generateFallbackMessage_ne_empty σ s agent other ty (hσ s.randIdx)
       rw [hF] at h0
       exact h0
     have hst := generateFallbackMessage_state σ s agent other ty
     rw [hF] at hst
     obtain ⟨hc2, hnow2⟩ := hst
     have hconv2 : getConv s2 cid = some conv := by
       unfold getConv at hconv ⊢
       rw [hc2]
       exact hconv
     have hpush : getConv (pushMessage s2 cid ⟨aid, msg, s2.now⟩) cid =
         some { conv with messages := conv.messages ++ [⟨aid, msg, s2.now⟩] } := by
       unfold getConv at hconv2
       unfold pushMessage updateConv getConv
       dsimp only
       rw [find?_push_map s2.conversations cid cid ⟨aid, msg, s2.now⟩ conv hconv2]
       rw [if_pos hconvid]
     dsimp only
     by_cases hlen : conv.messages.length + 1 < 6
     · rw [if_pos hlen]
       refine ⟨msg, [], { conv with messages := conv.messages ++ [⟨aid, msg, s2.now⟩] },
         hmsg, ?_, ?_⟩
       · exact hpush
       · rw [hnow2]
     · rw [if_neg hlen]
       have hupd : getConv (updateAgent
           (pushMessage s2 cid ⟨aid, msg, s2.now⟩) aid (fun a =>
             { a with
               lastMessage := some msg
               lastMessageTime := some (pushMessage s2 cid ⟨aid, msg, s2.now⟩).now })) cid =
           some { conv with messages := conv.messages ++ [⟨aid, msg, s2.now⟩] } := hpush
       obtain ⟨c', hc', hid', hp', hst', r, hm⟩ :=
         runEngine_convExtends fuel σ _ _ (EngineCall.endC cid) cid _ hupd
       refine ⟨msg, r, c', hmsg, ?_, ?_⟩
       · exact hc'
       · rw [hm, hnow2]
         simp)

/-- C4 witness: with the gateway not ready, a continue turn for the user
agent u1 of `twoUserWorld` resolves and appends a nonempty message to
conversation 0. -/
theorem c4_witness :
    ∃ (msg : String) (rest : List ConvMessage) (c' : Conversation),
      msg ≠ "" ∧
      getConv (generateConversationMessage 10 oracleHalf LLMOutcome.notReady
        twoUserWorld "u1" TurnType.cont) 0 = some c' ∧
      c'.messages = ⟨"u1", msg, 61000⟩ :: rest := by
  exact c4_fallback_total 9 oracleHalf LLMOutcome.notReady twoUserWorld
    "u1" TurnType.cont
    { id := "u1", name := "Ann", identity := "user one"
      position := ⟨0, 0⟩, isMoving := false, isUserControlled := true
      currentConversation := some 0 }
    0 ⟨0, ["u1", "u2"], [], 0, 0⟩
    { id := "u2", name := "Ben", identity := "user two"
      position := ⟨10, 0⟩, isMoving := false, isUserControlled := true
      currentConversation := some 0 }
    (fun i => by constructor <;> norm_num [oracleHalf])
    (Or.inl rfl)
    (of_decide_eq_true (by with_unfolding_all rfl))
    rfl
    (of_decide_eq_true (by with_unfolding_all rfl))
    (of_decide_eq_true (by with_unfolding_all rfl))

theorem updateConversations_convExtends (fuel : ℕ) (σ : ℕ → ℚ)
    (llm : LLMOutcome) (s : SimState) :
    ConvExtends s (updateConversations fuel σ llm s) := by
  unfold updateConversations
  apply convExtends_foldl
  intro t x
  split
  · split
    · exact runEngine_convExtends fuel σ llm t _
    · exact convExtends_refl t
  · exact convExtends_refl t

/-- C7 (amended).  Conversation termination never removes the
conversation from the registry: the timeout sweep `updateConversations`
preserves every stored conversation (same participants and start time,
messages only extended) — `endConversation` has no delete.  What does
hold is the weaker "active set" reading: a stored conversation none of
whose messages is younger than 10 seconds is not in
`getActiveConversations`. -/
theorem c7_amended (fuel : ℕ) (σ : ℕ → ℚ) (llm : LLMOutcome)
    (s : SimState) :
    (∀ (cid : ℕ) (c : Conversation), getConv s cid = some c →
      ∃ c', getConv (updateConversations fuel σ llm s) cid = some c' ∧
        c'.participants = c.participants ∧ c'.startTime = c.startTime) ∧
    (∀ c ∈ s.conversations,
      (∀ m ∈ c.messages, 10000 ≤ s.now - m.timestamp) →
      c ∉ getActiveConversations s) := by
  constructor
  · intro cid c hc
    obtain ⟨c', hc', _, hp, hst, _⟩ :=
      updateConversations_convExtends fuel σ llm s cid c hc
    exact ⟨c', hc', hp, hst⟩
  · intro c _ hold hmem
    unfold getActiveConversations at hmem
    rw [List.mem_filter] at hmem
    obtain ⟨-, hany⟩ := hmem
    rw [List.any_eq_true] at hany
    obtain ⟨m, hm, hlt⟩ := hany
    have := hold m hm
    rw [decide_eq_true_iff] at hlt
    omega

/-- C7 witness: in `timedOutWorld` (conversation 0 between Bob and Pete,
61 s old), the timeout sweep fires and the conversation is still stored
with its participants intact, while it is absent from the active set. -/
theorem c7_witness :
    (∃ c', getConv (updateConversations 10 oracleNine LLMOutcome.notReady
        timedOutWorld) 0 = some c' ∧
      c'.participants = ["bob", "pete"] ∧ c'.startTime = 0) ∧
    (⟨0, ["bob", "pete"], [], 0, 0⟩ : Conversation) ∉
      getActiveConversations timedOutWorld := by
  constructor
  · exact (c7_amended 10 oracleNine LLMOutcome.notReady timedOutWorld).1 0
      ⟨0, ["bob", "pete"], [], 0, 0⟩
      (of_decide_eq_true (by with_unfolding_all rfl))
  · exact (c7_amended 10 oracleNine LLMOutcome.notReady timedOutWorld).2
      ⟨0, ["bob", "pete"], [], 0, 0⟩ (by decide)
      (fun m hm => absurd hm (List.not_mem_nil m))
